import Mathlib

/-!
Verification development for the timetable scheduler in `src/main.py`
(Flask app; the scheduling engine is the pure function `run_scheduler`
together with its helpers `parse_time_str`, `time_to_minutes`,
`minutes_to_str`, `build_time_slots`, and the inner helpers
`normalize_availability` and `analyze_failure_reason`).

The Python code is shallowly embedded: dictionaries become association
lists or total functions with the dictionary's default, Python sets become
lists used only through membership and emptiness tests, machine-level
`int` is `Int`, and the few places where the Python code can raise
(`int(...)` on a non-numeric truthy value, `.split` on a non-string) are
modelled by `Except`.
-/

namespace Timetable

/-- A Python scalar as it can appear in the loosely typed payload fields
(`cycle_length`, `workday_start`, `workday_end`, `max_clients_per_slot`,
`max_per_day`).  `none` covers both an absent key and JSON `null`. -/
inductive PyVal where
  | none : PyVal
  | int : Int → PyVal
  | str : String → PyVal
deriving DecidableEq

/-- Python truthiness for the scalars we model: `None` is falsy, `0` is
falsy, `""` is falsy, everything else truthy. -/
def pyTruthy : PyVal → Bool
  | .none => false
  | .int n => n != 0
  | .str s => s != ""

/-- Python `a or b` on payload scalars. -/
def pyOr (a b : PyVal) : PyVal :=
  if pyTruthy a then a else b

/-- Python `str.strip()` (whitespace from both ends), written over the
character list so that it evaluates inside the kernel. -/
def pyStrip (s : String) : String :=
  ⟨(((s.data.dropWhile Char.isWhitespace).reverse).dropWhile Char.isWhitespace).reverse⟩

/-- Python `s.split(sep)` for a one-character separator, over the
character list; `"".split(sep)` is `[""]`, like Python's. -/
def splitOnChar (sep : Char) : List Char → List (List Char)
  | [] => [[]]
  | ch :: rest =>
    let r := splitOnChar sep rest
    if ch = sep then [] :: r
    else
      match r with
      | h :: t => (ch :: h) :: t
      | [] => [[ch]]

/-- Model of Python `int(s)` on a string: optional surrounding whitespace,
optional sign, then decimal digits.  (Python additionally accepts
underscore digit separators; those exotic strings are not modelled.)
`none` models the `ValueError`. -/
def parsePyInt (s : String) : Option Int :=
  let t := (pyStrip s).data
  let (sign, digits) : Int × List Char :=
    match t with
    | '-' :: rest => (-1, rest)
    | '+' :: rest => (1, rest)
    | _ => (1, t)
  if digits ≠ [] ∧ digits.all Char.isDigit then
    some (sign * (digits.foldl (fun n c => n * 10 + ((c.toNat : Int) - 48)) (0 : Int)))
  else
    Option.none

/-- Python `int(v)`: an int passes through, a string is parsed
(`ValueError` on failure), `None` raises `TypeError`. -/
def pyToInt : PyVal → Except String Int
  | .int n => .ok n
  | .str s =>
    match parsePyInt s with
    | some n => .ok n
    | Option.none => .error "ValueError: invalid literal for int()"
  | .none => .error "TypeError: int() argument must not be None"

/-- Using a payload scalar where the code calls a `str` method
(`parse_time_str` does `t.split(":")`): a non-string raises
`AttributeError`. -/
def pyToStr : PyVal → Except String String
  | .str s => .ok s
  | .int _ => .error "AttributeError: int has no attribute split"
  | .none => .error "AttributeError: None has no attribute split"

-- ---------- TIME HELPERS ----------

/-- `TIME_SLOT_MINUTES = 10` (module constant). -/
def TIME_SLOT_MINUTES : Int := 10

/-- `parse_time_str`: parse `"HH:MM"` into `(hour, minute)`, falling back
to `(8, 0)` when the split does not give two parts or either part fails
`int()` (the `except ValueError` branch). -/
def parse_time_str (t : String) : Int × Int :=
  match (splitOnChar ':' t.data).map String.mk with
  | [p1, p2] =>
    match parsePyInt p1, parsePyInt p2 with
    | some h, some m => (h, m)
    | _, _ => (8, 0)
  | _ => (8, 0)

/-- `time_to_minutes`. -/
def time_to_minutes (h m : Int) : Int := h * 60 + m

/-- Python `f"{n:02d}"`: with width 2 only single-character renderings get
a leading zero. -/
def pad2 (n : Int) : String :=
  let s := toString n
  if s.length < 2 then "0" ++ s else s

/-- `minutes_to_str`, using Python's floor division / modulo (which for
the positive divisor 60 coincide with `Int.ediv` / `Int.emod`). -/
def minutes_to_str (totalMinutes : Int) : String :=
  pad2 (totalMinutes.ediv 60) ++ ":" ++ pad2 (totalMinutes.emod 60)

/-- One blackout entry `{start, end}`; `stop` models the `"end"` key
(`end` is a Lean keyword), and `Option.none` models an absent key. -/
structure Blackout where
  start : Option String
  stop : Option String
deriving DecidableEq

/-- The `blackout_ranges` list: keep `(sb, eb)` for entries whose `start`
and `end` are present and truthy and where `eb > sb`. -/
def blackoutRanges (blackouts : List Blackout) : List (Int × Int) :=
  blackouts.filterMap (fun b =>
    match b.start, b.stop with
    | some s, some e =>
      if s = "" ∨ e = "" then Option.none
      else
        let sb := time_to_minutes (parse_time_str s).1 (parse_time_str s).2
        let eb := time_to_minutes (parse_time_str e).1 (parse_time_str e).2
        if eb > sb then some (sb, eb) else Option.none
    | _, _ => Option.none)

/-- `in_blackout`. -/
def in_blackout (ranges : List (Int × Int)) (minuteVal : Int) : Bool :=
  ranges.any (fun r => decide (r.1 ≤ minuteVal) && decide (minuteVal < r.2))

/-- The `while current < end_minutes` loop of `build_time_slots`,
written with a fuel argument for structural recursion; the caller passes
fuel at least as large as the number of iterations, and since the loop
guard is re-checked at every level, any sufficient fuel yields the same
list as the Python loop. -/
def buildSlotsGo (ranges : List (Int × Int)) (endMinutes : Int) :
    Nat → Int → List String
  | 0, _ => []
  | fuel + 1, current =>
    if current < endMinutes then
      (if in_blackout ranges current then [] else [minutes_to_str current]) ++
        buildSlotsGo ranges endMinutes fuel (current + TIME_SLOT_MINUTES)
    else []

/-- `build_time_slots`: slot start times from `workday_start` to
`workday_end` in `TIME_SLOT_MINUTES` increments, skipping blackouts, with
the 08:00–17:00 fallback when `end ≤ start`.  The loop advances by 10
minutes per iteration, so `(end - start).toNat + 1` fuel dominates the
iteration count. -/
def build_time_slots (workday_start workday_end : String)
    (blackouts : List Blackout) : List String :=
  let s0 := time_to_minutes (parse_time_str workday_start).1 (parse_time_str workday_start).2
  let e0 := time_to_minutes (parse_time_str workday_end).1 (parse_time_str workday_end).2
  let startMinutes := if e0 ≤ s0 then time_to_minutes 8 0 else s0
  let endMinutes := if e0 ≤ s0 then time_to_minutes 17 0 else e0
  buildSlotsGo (blackoutRanges blackouts) endMinutes
    ((endMinutes - startMinutes).toNat + 1) startMinutes

-- ---------- DATA MODEL ----------

/-- A key of the `availability` dict: either a string or a bare integer
(the two encodings `normalize_availability` accepts). -/
inductive DayKey where
  | str : String → DayKey
  | int : Int → DayKey
deriving DecidableEq

/-- One entry of the payload's `clients` list.  Fields that the code
reads with `.get(...)` and immediately coerces are typed at the coerced
type: `name` is the string value with `""` for an absent/`None` key
(`client.get("name") or ""`), `sessions_needed` is the integer value of
`int(client.get("sessions_needed", 0) or 0)` (an absent/falsy field is
the integer `0`), `session_length_minutes` is `Option.none` for an
absent/`None` key, `spacing_rule` carries the `.get` default `"none"`,
`group_id` is `""` for an absent/falsy key, and `max_per_day` keeps its
raw scalar because the code inspects it before converting.  The `tag`
field is never read by the engine and is omitted.  `availability` is the
dict as an insertion-ordered association list. -/
structure Client where
  name : String
  sessions_needed : Int
  session_length_minutes : Option Int
  spacing_rule : String
  max_per_day : PyVal
  group_id : String
  availability : List (DayKey × List String)
deriving DecidableEq

/-- The engine's input payload (the dict `run_scheduler` receives), with
the loosely typed top-level parameters kept as raw scalars. -/
structure Payload where
  cycle_length : PyVal
  workday_start : PyVal
  workday_end : PyVal
  max_clients_per_slot : PyVal
  blackouts : List Blackout
  clients : List Client
deriving DecidableEq

/-- The sanitized configuration produced by lines 113–132 of
`run_scheduler`: day list, slot list, clamped capacity, plus the raw
client list. -/
structure Config where
  days : List String
  time_slots : List String
  maxC : Int
  clients : List Client
deriving DecidableEq

/-- One record of the `summary` dict. -/
structure SummaryRec where
  needed : Int
  scheduled : Nat
  session_length : Int
  reason : String
deriving DecidableEq

/-- The timetable grid: `timetable[day][slot]` is the ordered occupant
list.  The Python nested dict (whose keys are exactly the days and slots,
every list initially empty) is modelled as a total function that is `[]`
away from the booked keys. -/
abbrev Grid := String → String → List String

/-- The value `run_scheduler` returns. -/
structure SchedResult where
  days : List String
  time_slots : List String
  timetable : Grid
  conflicts : List String
  summary : String → Option SummaryRec
  student_colors : String → Option String

-- ---------- AVAILABILITY ----------

/-- Lookup in an association list with the `dict.get(key, default)`
semantics, default `[]` (Python's empty set is only ever used through
membership and emptiness, so a list models it). -/
def lookupD (l : List (String × List String)) (k : String) : List String :=
  match l.find? (fun p => p.1 == k) with
  | some p => p.2
  | Option.none => []

/-- `normalized.setdefault(day, []); normalized[day].extend(times)` on an
insertion-ordered association list. -/
def extendAssoc (l : List (String × List String)) (k : String)
    (ts : List String) : List (String × List String) :=
  if l.any (fun p => p.1 == k) then
    l.map (fun p => if p.1 == k then (p.1, p.2 ++ ts) else p)
  else
    l ++ [(k, ts)]

/-- The day-key normalization inside `normalize_availability`:
a string already starting with `"Day"` is kept, anything else goes
through `f"Day{day_key}"`. -/
def normKey : DayKey → String
  | .str s => if "Day".data.isPrefixOf s.data then s else "Day" ++ s
  | .int n => "Day" ++ toString n

/-- `normalize_availability(client)`: canonical day → slot collection.
The final `set(times)` only matters through membership and emptiness, so
the (possibly duplicated) concatenated list stands for it. -/
def normalize_availability (c : Client) : List (String × List String) :=
  c.availability.foldl (fun acc p => extendAssoc acc (normKey p.1) p.2) []

/-- The combined group availability (lines 219–228): for each cycle day,
the intersection of all members' slot sets, kept only when non-empty.
Set intersection is modelled by `List.filter` membership, which agrees
with it on membership and emptiness. -/
def combinedAvail (days : List String) (members : List Client) :
    List (String × List String) :=
  let availList := members.map normalize_availability
  days.foldl (fun acc day =>
    match availList with
    | [] => acc
    | first :: rest =>
      let base := rest.foldl
        (fun b other => b.filter (fun s => decide (s ∈ lookupD other day)))
        (lookupD first day)
      if base ≠ [] then acc ++ [(day, base)] else acc) []

-- ---------- GROUPING ----------

/-- `groups.setdefault(group_id, []).append(client)` on an
insertion-ordered association list. -/
def addToGroups (gs : List (String × List Client)) (gid : String)
    (c : Client) : List (String × List Client) :=
  if gs.any (fun p => p.1 == gid) then
    gs.map (fun p => if p.1 == gid then (p.1, p.2 ++ [c]) else p)
  else
    gs ++ [(gid, [c])]

/-- One iteration of the grouping loop (lines 156–164): drop a client
with an empty stripped name, route a truthy `group_id` into `groups`,
anything else to `solo_clients`. -/
def partStep (acc : List (String × List Client) × List Client) (c : Client) :
    List (String × List Client) × List Client :=
  if pyStrip c.name = "" then acc
  else if c.group_id ≠ "" then (addToGroups acc.1 c.group_id c, acc.2)
  else (acc.1, acc.2 ++ [c])

/-- The grouping loop (lines 156–164): `groups` in first-seen key order
and `solo_clients` in input order. -/
def partitionClients (clients : List Client) :
    List (String × List Client) × List Client :=
  clients.foldl partStep ([], [])

-- ---------- FAILURE ANALYSIS ----------

/-- `time_slots[start_idx : start_idx + slots_per_session]`. -/
def blockAt (time_slots : List String) (sps start_idx : Nat) : List String :=
  (time_slots.drop start_idx).take sps

/-- The scan inside `analyze_failure_reason`: does some day have a
contiguous run of `slots_per_session` slot positions that all lie in the
unit's usable set?  (`range(len(time_slots) - slots_per_session + 1)` is
`List.range (len + 1 - sps)`, matching Python's empty range when
`sps > len`.) -/
def hasAnyBlock (time_slots days : List String)
    (avail : List (String × List String)) (sps : Nat) : Bool :=
  days.any (fun day =>
    let dayAvail := lookupD avail day
    !dayAvail.isEmpty &&
      (List.range (time_slots.length + 1 - sps)).any (fun i =>
        (blockAt time_slots sps i).all (fun slot => decide (slot ∈ dayAvail))))

/-- The structural diagnostic message. -/
def structuralMsg : String :=
  "Not enough contiguous availability to fit full sessions."

/-- The contention diagnostic message. -/
def contentionMsg : String :=
  "Available blocks exist but are filled or blocked by spacing/capacity rules."

/-- `analyze_failure_reason`. -/
def analyze_failure_reason (time_slots days : List String)
    (avail : List (String × List String)) (sps : Nat) : String :=
  if hasAnyBlock time_slots days avail sps then contentionMsg
  else structuralMsg

-- ---------- PLACEMENT ENGINE ----------

/-- The per-unit data the placement loop consults: cycle days, slot list,
clamped capacity, the unit's availability map, `slots_per_session`, the
spacing rule, the parsed `max_per_day` (always `Option.none` for groups,
which do not have that gate), the size added to each slot's occupancy
(`len(members)` for a group, `1` for a solo client), and the names booked
into each slot of a won window. -/
structure UnitCtx where
  days : List String
  time_slots : List String
  maxC : Int
  avail : List (String × List String)
  sps : Nat
  rule : String
  maxPerDay : Option Int
  size : Nat
  bookNames : List String

/-- The mutable per-unit placement state: the shared grid plus
`scheduled_count`, `used_days`, `used_day_indices`, `per_day_counts`
(solo only; groups never read it) and `reason`. -/
structure UnitState where
  T : Grid
  scheduled : Nat
  usedDays : List String
  usedIdxs : List Nat
  perDay : String → Nat
  reason : String

/-- Append `nm` to one slot's occupant list for each booked name, with
the `if nm and nm not in timetable[day][slot]` dedup guard (the solo
variant omits the truthiness test, but its single name is non-empty by
the guard at line 311, so this one definition covers both loops). -/
def bookSlot (occ : List String) (names : List String) : List String :=
  names.foldl (fun occ nm =>
    if nm ≠ "" ∧ nm ∉ occ then occ ++ [nm] else occ) occ

/-- Point update of the grid (assignment to `timetable[day][slot]`). -/
def updateG (T : Grid) (day slot : String) (occ : List String) : Grid :=
  fun d s => if d = day ∧ s = slot then occ else T d s

/-- `for slot in block: ... append ...` over the whole window. -/
def bookBlock (T : Grid) (day : String) (block : List String)
    (names : List String) : Grid :=
  block.foldl (fun Tc slot => updateG Tc day slot (bookSlot (Tc day slot) names)) T

/-- The window feasibility test of lines 253–260 / 365–372: every slot of
the block is in the day's usable set and has room for `size` more
occupants (`len(...) + size > max_clients_per_slot` rejects). -/
def blockOk (T : Grid) (maxC : Int) (size : Nat) (day : String)
    (dayAvail : List String) (block : List String) : Bool :=
  block.all (fun slot =>
    decide (slot ∈ dayAvail) &&
      decide (((T day slot).length : Int) + size ≤ maxC))

/-- The window scan of lines 251/363: the first `start_idx` in
`range(len(time_slots) - slots_per_session + 1)` whose block passes
`blockOk`. -/
def findStartIdx (T : Grid) (maxC : Int) (size : Nat) (day : String)
    (dayAvail : List String) (time_slots : List String) (sps : Nat) :
    Option Nat :=
  (List.range (time_slots.length + 1 - sps)).find? (fun i =>
    blockOk T maxC size day dayAvail (blockAt time_slots sps i))

/-- The `continue` gates at the top of the day loop (lines 240–249 /
350–361): spacing rules, the solo `max_per_day` cap, and an empty usable
set for the day. -/
def daySkip (ctx : UnitCtx) (st : UnitState) (dayIdx : Nat) (day : String) :
    Bool :=
  (ctx.rule == "once_per_day" && decide (day ∈ st.usedDays)) ||
  (ctx.rule == "no_consecutive_days" &&
    st.usedIdxs.any (fun idx => decide (((dayIdx : Int) - (idx : Int)).natAbs ≤ 1))) ||
  (match ctx.maxPerDay with
   | some mpd => decide ((st.perDay day : Int) ≥ mpd)
   | Option.none => false) ||
  (lookupD ctx.avail day).isEmpty

/-- The day scan for one session attempt (`for day_index, day in
enumerate(days)`): the first non-skipped day with a feasible window wins;
the booking itself is done by the caller, which is equivalent to the
source because the source books at the moment of the first success and
immediately breaks out of both loops. -/
def findPlacementAux (ctx : UnitCtx) (st : UnitState) :
    Nat → List String → Option (Nat × String × List String)
  | _, [] => Option.none
  | dayIdx, day :: rest =>
    if daySkip ctx st dayIdx day then findPlacementAux ctx st (dayIdx + 1) rest
    else
      match findStartIdx st.T ctx.maxC ctx.size day (lookupD ctx.avail day)
          ctx.time_slots ctx.sps with
      | some i => some (dayIdx, day, blockAt ctx.time_slots ctx.sps i)
      | Option.none => findPlacementAux ctx st (dayIdx + 1) rest

/-- One session-placement attempt; `Option.none` models
`placed_this_session` staying false. -/
def placeOne (ctx : UnitCtx) (st : UnitState) : Option UnitState :=
  match findPlacementAux ctx st 0 ctx.days with
  | some (dayIdx, day, block) =>
    some { st with
      T := bookBlock st.T day block ctx.bookNames
      scheduled := st.scheduled + 1
      usedDays := day :: st.usedDays
      usedIdxs := st.usedIdxs ++ [dayIdx]
      perDay := fun d => if d = day then st.perDay d + 1 else st.perDay d }
  | Option.none => Option.none

/-- The `for _ in range(sessions_needed)` loop: on a failed attempt set
`reason` and break, leaving earlier placements in the grid. -/
def placeSessions (ctx : UnitCtx) : Nat → UnitState → UnitState
  | 0, st => st
  | n + 1, st =>
    match placeOne ctx st with
    | some st' => placeSessions ctx n st'
    | Option.none =>
      { st with reason := analyze_failure_reason ctx.time_slots ctx.days ctx.avail ctx.sps }

-- ---------- PER-UNIT WRAPPERS ----------

/-- What processing one scheduling unit contributes: the updated grid,
the unit's conflict-list entry when it fell short, and its summary
assignments in member order.  The remaining fields (`scheduled`,
`needed`, `reason`, `usedDays`, `usedIdxs`, `avail`, `sps`) expose the
unit's final loop state for the theorems; the driver only consumes the
first three. -/
structure UnitResult where
  T : Grid
  conflict : Option String
  summaryUpd : List (String × SummaryRec)
  scheduled : Nat
  needed : Int
  reason : String
  usedDays : List String
  usedIdxs : List Nat
  avail : List (String × List String)
  sps : Nat

/-- A unit the loop body skips over with `continue` before placing
anything. -/
def skipUnit (T : Grid) (needed : Int) : UnitResult :=
  ⟨T, Option.none, [], 0, needed, "", [], [], [], 0⟩

/-- The effective session length (lines 209–213 / 319–323):
`int(client.get("session_length_minutes") or TIME_SLOT_MINUTES)` followed
by the `<= 0` correction. -/
def effLength (v : Option Int) : Int :=
  let raw := match v with
    | Option.none => TIME_SLOT_MINUTES
    | some n => if n = 0 then TIME_SLOT_MINUTES else n
  if raw ≤ 0 then TIME_SLOT_MINUTES else raw

/-- `slots_per_session = max(1, math.ceil(session_length /
TIME_SLOT_MINUTES))`; the operand of `ceil` is positive here, so the
ceiling is `(len + 10 - 1) / 10` in Euclidean division. -/
def spsOf (sessionLength : Int) : Nat :=
  (max 1 ((sessionLength + TIME_SLOT_MINUTES - 1).ediv TIME_SLOT_MINUTES)).toNat

/-- The `max_per_day` parse (lines 328–336): the sentinel tuple
`(None, "", 0, "0")` keeps it `None`, otherwise `int(...)` with failures
and values `< 1` collapsing to `None`. -/
def parseMaxPerDay : PyVal → Option Int
  | .none => Option.none
  | .int 0 => Option.none
  | .str "" => Option.none
  | .str "0" => Option.none
  | .int n => if n < 1 then Option.none else some n
  | .str s =>
    match parsePyInt s with
    | some n => if n < 1 then Option.none else some n
    | Option.none => Option.none

/-- Global sanitized scheduling context. -/
structure SchedCtx where
  days : List String
  time_slots : List String
  maxC : Int

/-- The fresh per-unit state. -/
def initState (T : Grid) : UnitState := ⟨T, 0, [], [], fun _ => 0, ""⟩

/-- The group conflict message (lines 289–296). -/
def groupMsg (gid : String) (memberNames : List String) (needed : Int)
    (scheduled : Nat) (reason : String) : String :=
  let msg := "Unable to fully schedule group " ++ gid ++ " (" ++
    String.intercalate ", " memberNames ++ "): needed " ++ toString needed ++
    ", scheduled " ++ toString scheduled ++ "."
  if reason ≠ "" then msg ++ " Reason: " ++ reason else msg

/-- The solo conflict message (lines 393–398). -/
def soloMsg (name : String) (needed : Int) (scheduled : Nat)
    (reason : String) : String :=
  let msg := "Unable to fully schedule " ++ name ++ ": needed " ++
    toString needed ++ ", scheduled " ++ toString scheduled ++ "."
  if reason ≠ "" then msg ++ " Reason: " ++ reason else msg

/-- The `UnitCtx` a group unit runs under (lines 209–233): availability
is the member intersection, there is no `max_per_day` gate, the occupancy
check adds `len(members)`, and every member's stripped name is booked. -/
def groupCtx (sc : SchedCtx) (members : List Client) (template : Client) :
    UnitCtx :=
  ⟨sc.days, sc.time_slots, sc.maxC, combinedAvail sc.days members,
    spsOf (effLength template.session_length_minutes), template.spacing_rule,
    Option.none, members.length, members.map (fun m => pyStrip m.name)⟩

/-- The final loop state of a (non-skipped) group unit. -/
def groupSt (sc : SchedCtx) (T : Grid) (members : List Client)
    (template : Client) : UnitState :=
  placeSessions (groupCtx sc members template) template.sessions_needed.toNat
    (initState T)

/-- The else-branch of the group loop body: place the sessions and build
the unit's conflict entry and summary assignments. -/
def runGroupUnit (sc : SchedCtx) (T : Grid) (gid : String) (template : Client)
    (rest : List Client) : UnitResult :=
  let needed := template.sessions_needed
  let sessionLength := effLength template.session_length_minutes
  let st := groupSt sc T (template :: rest) template
  let memberNames :=
    ((template :: rest).map (fun m => pyStrip m.name)).filter (fun n => n ≠ "")
  let short := (st.scheduled : Int) < needed
  let conflict := if short then
      some (groupMsg gid memberNames needed st.scheduled st.reason)
    else Option.none
  let rec0 : SummaryRec :=
    ⟨needed, st.scheduled, sessionLength, if short then st.reason else ""⟩
  let upds := (template :: rest).filterMap (fun m =>
    if pyStrip m.name = "" then Option.none else some (pyStrip m.name, rec0))
  ⟨st.T, conflict, upds, st.scheduled, needed, st.reason,
    st.usedDays, st.usedIdxs, combinedAvail sc.days (template :: rest),
    spsOf sessionLength⟩

/-- The body of the group loop (lines 200–307) for one `groups` entry. -/
def processGroup (sc : SchedCtx) (T : Grid) (gid : String)
    (members : List Client) : UnitResult :=
  match members with
  | [] => skipUnit T 0
  | template :: rest =>
    if template.sessions_needed ≤ 0 then skipUnit T template.sessions_needed
    else runGroupUnit sc T gid template rest

/-- The `UnitCtx` a solo unit runs under (lines 319–343). -/
def soloCtx (sc : SchedCtx) (c : Client) : UnitCtx :=
  ⟨sc.days, sc.time_slots, sc.maxC, normalize_availability c,
    spsOf (effLength c.session_length_minutes), c.spacing_rule,
    parseMaxPerDay c.max_per_day, 1, [pyStrip c.name]⟩

/-- The final loop state of a (non-skipped) solo unit. -/
def soloSt (sc : SchedCtx) (T : Grid) (c : Client) : UnitState :=
  placeSessions (soloCtx sc c) c.sessions_needed.toNat (initState T)

/-- The else-branch of the solo loop body. -/
def runSoloUnit (sc : SchedCtx) (T : Grid) (c : Client) : UnitResult :=
  let name := pyStrip c.name
  let needed := c.sessions_needed
  let sessionLength := effLength c.session_length_minutes
  let st := soloSt sc T c
  let short := (st.scheduled : Int) < needed
  let conflict := if short then
      some (soloMsg name needed st.scheduled st.reason)
    else Option.none
  let rec0 : SummaryRec :=
    ⟨needed, st.scheduled, sessionLength, if short then st.reason else ""⟩
  ⟨st.T, conflict, [(name, rec0)], st.scheduled, needed, st.reason,
    st.usedDays, st.usedIdxs, normalize_availability c, spsOf sessionLength⟩

/-- The body of the solo loop (lines 310–406) for one client. -/
def processSolo (sc : SchedCtx) (T : Grid) (c : Client) : UnitResult :=
  if pyStrip c.name = "" then skipUnit T 0
  else
    if c.sessions_needed ≤ 0 then skipUnit T c.sessions_needed
    else runSoloUnit sc T c

-- ---------- RESULT AGGREGATION ----------

/-- Sequential dict assignments `summary[name] = rec`. -/
def applyUpds (f : String → Option SummaryRec)
    (upds : List (String × SummaryRec)) : String → Option SummaryRec :=
  upds.foldl (fun f u => fun x => if x = u.1 then some u.2 else f x) f

/-- `color_classes`. -/
def color_classes : List String :=
  ["color-1", "color-2", "color-3", "color-4",
   "color-5", "color-6", "color-7", "color-8"]

/-- `student_colors` (lines 143–147): enumerate all clients (the index
advances past unnamed ones too) and assign by index modulo the palette. -/
def mkColors (clients : List Client) : String → Option String :=
  (clients.foldl (fun (acc : (String → Option String) × Nat) c =>
    let name := pyStrip c.name
    let f := if name = "" then acc.1
      else fun x =>
        if x = name then some (color_classes.getD (acc.2 % color_classes.length) "")
        else acc.1 x
    (f, acc.2 + 1)) (fun _ => Option.none, 0)).1

/-- The scheduling passes of `run_scheduler` after sanitisation: build
the empty grid, process all group units (first-seen `group_id` order),
then all solo clients (input order), threading the grid and appending
each unit's conflict entry and summary assignments. -/
def run_core (cfg : Config) : SchedResult :=
  let sc : SchedCtx := ⟨cfg.days, cfg.time_slots, cfg.maxC⟩
  let parts := partitionClients cfg.clients
  let step := fun (acc : Grid × List String × (String → Option SummaryRec))
      (r : UnitResult) =>
    (r.T, acc.2.1 ++ r.conflict.toList, applyUpds acc.2.2 r.summaryUpd)
  let a1 := parts.1.foldl
    (fun acc g => step acc (processGroup sc acc.1 g.1 g.2))
    ((fun _ _ => ([] : List String)), ([] : List String), fun _ => Option.none)
  let a2 := parts.2.foldl (fun acc c => step acc (processSolo sc acc.1 c)) a1
  ⟨cfg.days, cfg.time_slots, a2.1, a2.2.1, a2.2.2, mkColors cfg.clients⟩

/-- Lines 113–132 of `run_scheduler`: coerce and clamp the top-level
parameters, build the day list and the slot list.  The `Except` layer
carries the exceptions `int(...)` (lines 114/123) and
`parse_time_str`'s `.split` (via line 132) can raise; the raising order
follows the source (cycle length, capacity, then the workday strings). -/
def sanitize (p : Payload) : Except String Config :=
  match pyToInt (pyOr p.cycle_length (PyVal.int 6)) with
  | .error e => .error e
  | .ok cl =>
    let cycle := if cl < 1 then 1 else if cl > 20 then 20 else cl
    match pyToInt (pyOr p.max_clients_per_slot (PyVal.int 1)) with
    | .error e => .error e
    | .ok mc =>
      let maxC := if mc < 1 then 1 else if mc > 50 then 50 else mc
      match pyToStr (pyOr p.workday_start (PyVal.str "08:00")),
          pyToStr (pyOr p.workday_end (PyVal.str "17:00")) with
      | .ok ws, .ok we =>
        let days := (List.range cycle.toNat).map (fun d => "Day" ++ toString (d + 1))
        .ok ⟨days, build_time_slots ws we p.blackouts, maxC, p.clients⟩
      | .error e, _ => .error e
      | _, .error e => .error e

/-- `run_scheduler`. -/
def run_scheduler (p : Payload) : Except String SchedResult :=
  (sanitize p).map run_core

-- ---------- CONCRETE SCENARIO INPUTS ----------

/-- A client entry with no `max_per_day` key. -/
def mkClient (name : String) (needed : Int) (len : Option Int) (rule : String)
    (gid : String) (avail : List (DayKey × List String)) : Client :=
  ⟨name, needed, len, rule, PyVal.none, gid, avail⟩

/-- Scenario A input: one day, workday 08:00–09:00, a solo client needing
one 30-minute session and available at all six slots. -/
def payloadA : Payload :=
  ⟨PyVal.int 1, PyVal.str "08:00", PyVal.str "09:00", PyVal.int 1, [],
    [mkClient "Ann" 1 (some 30) "none" ""
      [(DayKey.str "Day1", ["08:00", "08:10", "08:20", "08:30", "08:40", "08:50"])]]⟩

/-- Scenario B input: capacity 1, two solo clients each needing one
session and available only at 08:00 on Day1. -/
def payloadB : Payload :=
  ⟨PyVal.int 1, PyVal.str "08:00", PyVal.str "08:30", PyVal.int 1, [],
    [mkClient "Ann" 1 Option.none "none" "" [(DayKey.str "Day1", ["08:00"])],
     mkClient "Ben" 1 Option.none "none" "" [(DayKey.str "Day1", ["08:00"])]]⟩

/-- Scenario C input: a two-member group, `no_consecutive_days`, two
sessions, available on Day1–Day3. -/
def payloadC : Payload :=
  ⟨PyVal.int 3, PyVal.str "08:00", PyVal.str "08:30", PyVal.int 2, [],
    [mkClient "Cara" 2 Option.none "no_consecutive_days" "G1"
      [(DayKey.str "Day1", ["08:00"]), (DayKey.str "Day2", ["08:00"]),
        (DayKey.str "Day3", ["08:00"])],
     mkClient "Dan" 2 Option.none "no_consecutive_days" "G1"
      [(DayKey.str "Day1", ["08:00"]), (DayKey.str "Day2", ["08:00"]),
        (DayKey.str "Day3", ["08:00"])]]⟩

/-- Scenario D input: two 30-minute sessions wanted but the availability
(08:00 and 08:20 only) admits no contiguous three-slot block. -/
def payloadD : Payload :=
  ⟨PyVal.int 1, PyVal.str "08:00", PyVal.str "09:00", PyVal.int 1, [],
    [mkClient "Eve" 2 (some 30) "none" "" [(DayKey.str "Day1", ["08:00", "08:20"])]]⟩

/-- Re-booking input: capacity 2, one solo client needing two 30-minute
sessions with exactly one three-slot window available, so the second
session is placed over the client's own slots. -/
def payloadE : Payload :=
  ⟨PyVal.int 1, PyVal.str "08:00", PyVal.str "08:30", PyVal.int 2, [],
    [mkClient "Bob" 2 (some 30) "none" ""
      [(DayKey.str "Day1", ["08:00", "08:10", "08:20"])]]⟩

/-- A payload whose `cycle_length` is the integer `0`. -/
def payloadZeroCycle : Payload :=
  ⟨PyVal.int 0, PyVal.none, PyVal.none, PyVal.none, [], []⟩

/-- A payload whose `cycle_length` is a truthy non-numeric string. -/
def payloadBadCycle : Payload :=
  ⟨PyVal.str "abc", PyVal.none, PyVal.none, PyVal.none, [], []⟩

/-- A payload with one named client whose `sessions_needed` is zero. -/
def payloadZeroNeed : Payload :=
  ⟨PyVal.int 1, PyVal.str "08:00", PyVal.str "08:30", PyVal.none, [],
    [mkClient "Ann" 0 Option.none "none" "" [(DayKey.str "Day1", ["08:00"])]]⟩

-- ---------- RESULT PROJECTIONS ----------

/-- Occupant list of the result grid (empty when the engine raised). -/
def gridAt (x : Except String SchedResult) (d s : String) : List String :=
  match x with
  | .ok r => r.timetable d s
  | .error _ => []

/-- Summary record of one name in the result. -/
def summaryAt (x : Except String SchedResult) (n : String) : Option SummaryRec :=
  match x with
  | .ok r => r.summary n
  | .error _ => Option.none

/-- Conflict list of the result. -/
def conflictsOf (x : Except String SchedResult) : List String :=
  match x with
  | .ok r => r.conflicts
  | .error _ => []

/-- Slot list of the result. -/
def slotsOf (x : Except String SchedResult) : List String :=
  match x with
  | .ok r => r.time_slots
  | .error _ => []

/-- Day list of the result. -/
def daysOf (x : Except String SchedResult) : List String :=
  match x with
  | .ok r => r.days
  | .error _ => []

/-- Did the engine return normally? -/
def isOkRun (x : Except String SchedResult) : Bool :=
  match x with
  | .ok _ => true
  | .error _ => false

/-- Every occupant list in the grid has at most `maxC` entries. -/
def GridBound (maxC : Int) (T : Grid) : Prop :=
  ∀ d s, ((T d s).length : Int) ≤ maxC

/-- Every occupant list in the grid is duplicate-free. -/
def GridNodup (T : Grid) : Prop :=
  ∀ d s, (T d s).Nodup
/-- Two day indices at least two apart (the relation preserved by
`no_consecutive_days`). -/
def FarApart (a b : Nat) : Prop := 2 ≤ ((a : Int) - (b : Int)).natAbs
/-- The group identifiers of the valid (named) grouped clients, in input
order, with multiplicity. -/
def groupGids (cs : List Client) : List String :=
  cs.filterMap (fun c =>
    if pyStrip c.name = "" then Option.none
    else if c.group_id ≠ "" then some c.group_id
    else Option.none)

/-- Append a key unless it was already seen. -/
def seenInsert (acc : List String) (g : String) : List String :=
  if g ∈ acc then acc else acc ++ [g]

/-- First-seen-order deduplication. -/
def firstSeen (l : List String) : List String := l.foldl seenInsert []

/-- The member list collected for a key, `[]` when absent. -/
def lookupGroup (gs : List (String × List Client)) (gid : String) :
    List Client :=
  match gs.find? (fun p => p.1 == gid) with
  | some p => p.2
  | Option.none => []
/-- A `cycle_length`/`max_clients_per_slot` scalar that `int(... or d)`
accepts without raising: anything absent or falsy, an integer, or a
numeric string. -/
def intAcceptable : PyVal → Bool
  | .str s => s == "" || (parsePyInt s).isSome
  | _ => true

/-- A `workday_start`/`workday_end` scalar that `parse_time_str` accepts
without raising: anything absent/falsy (replaced by the default) or a
string. -/
def strAcceptable : PyVal → Bool
  | .int _ => false
  | _ => true
-- ---------- WITNESS INPUTS ----------

/-- The sanitized configuration of `payloadA`. -/
def cfgA : Config :=
  ⟨["Day1"], ["08:00", "08:10", "08:20", "08:30", "08:40", "08:50"], 1,
    payloadA.clients⟩

/-- The sanitized configuration of `payloadB`. -/
def cfgB : Config :=
  ⟨["Day1"], ["08:00", "08:10", "08:20"], 1, payloadB.clients⟩

/-- The sanitized configuration of `payloadE`. -/
def cfgE : Config :=
  ⟨["Day1"], ["08:00", "08:10", "08:20"], 2, payloadE.clients⟩

/-- A payload asking for a three-day cycle over a one-slot workday. -/
def payloadThree : Payload :=
  ⟨PyVal.int 3, PyVal.str "08:00", PyVal.str "08:10", PyVal.none, [], []⟩

/-- The sanitized configuration of `payloadThree`. -/
def cfgThree : Config := ⟨["Day1", "Day2", "Day3"], ["08:00"], 1, []⟩

/-- A one-day, one-slot scheduling context. -/
def scW : SchedCtx := ⟨["Day1"], ["08:00"], 1⟩

/-- A one-day context with the six-slot 08:00–09:00 template. -/
def scW6 : SchedCtx :=
  ⟨["Day1"], ["08:00", "08:10", "08:20", "08:30", "08:40", "08:50"], 1⟩

/-- A solo client wanting two sessions in a one-slot world. -/
def cW : Client := mkClient "Wit" 2 Option.none "none" "" [(DayKey.str "Day1", ["08:00"])]

/-- The fragmented-availability client of scenario D. -/
def cEve : Client :=
  mkClient "Eve" 2 (some 30) "none" "" [(DayKey.str "Day1", ["08:00", "08:20"])]

/-- A `once_per_day` solo client. -/
def cOpd : Client :=
  mkClient "Opd" 2 Option.none "once_per_day" "" [(DayKey.str "Day1", ["08:00"])]

/-- The empty grid. -/
def emptyGrid : Grid := fun _ _ => []

-- ---------- GENERAL FOLD LEMMA ----------

theorem foldl_preserve {α : Type _} {β : Type _} (P : α → Prop) (f : α → β → α)
    (h : ∀ a b, P a → P (f a b)) : ∀ (l : List β) (a : α), P a → P (l.foldl f a) := by
  intro l
  induction l with
  | nil => intro a ha; exact ha
  | cons b t ih => intro a ha; exact ih (f a b) (h a b ha)

theorem runGroupUnit_T (sc : SchedCtx) (T : Grid) (gid : String)
    (template : Client) (rest : List Client) :
    (runGroupUnit sc T gid template rest).T =
      (groupSt sc T (template :: rest) template).T := rfl

theorem runSoloUnit_T (sc : SchedCtx) (T : Grid) (c : Client) :
    (runSoloUnit sc T c).T = (soloSt sc T c).T := rfl

-- ---------- BOOKING LEMMAS ----------

theorem bookSlot_nil (occ : List String) : bookSlot occ [] = occ := rfl

theorem bookSlot_cons (occ : List String) (nm : String) (rest : List String) :
    bookSlot occ (nm :: rest) =
      bookSlot (if nm ≠ "" ∧ nm ∉ occ then occ ++ [nm] else occ) rest := rfl

theorem bookSlot_length_le (names : List String) :
    ∀ occ : List String, (bookSlot occ names).length ≤ occ.length + names.length := by
  induction names with
  | nil => intro occ; simp [bookSlot_nil]
  | cons nm rest ih =>
    intro occ
    rw [bookSlot_cons]
    split
    · calc (bookSlot (occ ++ [nm]) rest).length ≤ (occ ++ [nm]).length + rest.length :=
          ih (occ ++ [nm])
        _ = occ.length + (nm :: rest).length := by simp; omega
    · calc (bookSlot occ rest).length ≤ occ.length + rest.length := ih occ
        _ ≤ occ.length + (nm :: rest).length := by simp

theorem mem_bookSlot_of_mem (names : List String) :
    ∀ (occ : List String) (x : String), x ∈ occ → x ∈ bookSlot occ names := by
  induction names with
  | nil => intro occ x hx; simpa [bookSlot_nil] using hx
  | cons nm rest ih =>
    intro occ x hx
    rw [bookSlot_cons]
    split
    · exact ih _ x (by simp [hx])
    · exact ih _ x hx

theorem mem_bookSlot (names : List String) :
    ∀ (occ : List String) (nm : String), nm ∈ names → nm ≠ "" →
      nm ∈ bookSlot occ names := by
  induction names with
  | nil => intro occ nm h; cases h
  | cons a rest ih =>
    intro occ nm hmem hne
    rw [bookSlot_cons]
    rcases List.mem_cons.mp hmem with h | h
    · subst h
      by_cases hocc : nm ∈ occ
      · have : ¬(nm ≠ "" ∧ nm ∉ occ) := fun hc => hc.2 hocc
        rw [if_neg this]
        exact mem_bookSlot_of_mem rest occ nm hocc
      · rw [if_pos ⟨hne, hocc⟩]
        exact mem_bookSlot_of_mem rest _ nm (by simp)
    · split
      · exact ih _ nm h hne
      · exact ih _ nm h hne

theorem bookSlot_eq_of_covered (names : List String) :
    ∀ occ : List String, (∀ nm ∈ names, nm = "" ∨ nm ∈ occ) →
      bookSlot occ names = occ := by
  induction names with
  | nil => intro occ _; rfl
  | cons a rest ih =>
    intro occ hcov
    rw [bookSlot_cons]
    have ha := hcov a (by simp)
    have : ¬(a ≠ "" ∧ a ∉ occ) := by
      rcases ha with h | h
      · exact fun hc => hc.1 h
      · exact fun hc => hc.2 h
    rw [if_neg this]
    exact ih occ (fun nm hnm => hcov nm (by simp [hnm]))

theorem bookSlot_idem (names occ : List String) :
    bookSlot (bookSlot occ names) names = bookSlot occ names := by
  apply bookSlot_eq_of_covered
  intro nm hnm
  by_cases hne : nm = ""
  · exact Or.inl hne
  · exact Or.inr (mem_bookSlot names occ nm hnm hne)

theorem bookSlot_nodup (names : List String) :
    ∀ occ : List String, occ.Nodup → (bookSlot occ names).Nodup := by
  induction names with
  | nil => intro occ h; simpa [bookSlot_nil] using h
  | cons a rest ih =>
    intro occ hocc
    rw [bookSlot_cons]
    split
    · rename_i hcond
      refine ih _ ?_
      rw [List.nodup_append]
      exact ⟨hocc, List.nodup_singleton a,
        fun x hx hx' => hcond.2 (by rwa [List.mem_singleton.mp hx'] at hx)⟩
    · exact ih _ hocc

-- ---------- GRID INVARIANTS ----------

theorem bookBlock_cons (T : Grid) (day slot : String) (rest names : List String) :
    bookBlock T day (slot :: rest) names =
      bookBlock (updateG T day slot (bookSlot (T day slot) names)) day rest names := rfl

theorem bookBlock_bound (maxC : Int) (T : Grid) (day : String) (names : List String) :
    ∀ (block : List String) (T' : Grid),
      (∀ s ∈ block, ((T day s).length : Int) + names.length ≤ maxC) →
      GridBound maxC T' →
      (∀ d s, T' d s = T d s ∨ bookSlot (T' d s) names = T' d s) →
      GridBound maxC (bookBlock T' day block names) := by
  intro block
  induction block with
  | nil => intro T' _ hb _; exact hb
  | cons slot rest ih =>
    intro T' hcheck hb htouch
    rw [bookBlock_cons]
    apply ih
    · intro s hs; exact hcheck s (by simp [hs])
    · -- the updated grid still satisfies the bound
      intro d s
      unfold updateG
      split
      · rename_i hds
        rcases htouch day slot with h | h
        · have h1 : ((bookSlot (T' day slot) names).length : Int) ≤
              ((T' day slot).length : Int) + names.length := by
            exact_mod_cast bookSlot_length_le names (T' day slot)
          rw [h] at h1 ⊢
          calc ((bookSlot (T day slot) names).length : Int)
              ≤ ((T day slot).length : Int) + names.length := h1
            _ ≤ maxC := hcheck slot (by simp)
        · rw [h]; exact hb day slot
      · exact hb d s
    · -- every entry is still either untouched or saturated
      intro d s
      unfold updateG
      split
      · exact Or.inr (bookSlot_idem names (T' day slot))
      · exact htouch d s

theorem bookBlock_bound_start (maxC : Int) (T : Grid) (day : String)
    (names block : List String)
    (hcheck : ∀ s ∈ block, ((T day s).length : Int) + names.length ≤ maxC)
    (hb : GridBound maxC T) :
    GridBound maxC (bookBlock T day block names) :=
  bookBlock_bound maxC T day names block T hcheck hb (fun _ _ => Or.inl rfl)

theorem bookBlock_nodup (T : Grid) (day : String) (names : List String) :
    ∀ (block : List String), GridNodup T → GridNodup (bookBlock T day block names) := by
  intro block
  induction block generalizing T with
  | nil => intro h; exact h
  | cons slot rest ih =>
    intro h
    rw [bookBlock_cons]
    apply ih
    intro d s
    unfold updateG
    split
    · exact bookSlot_nodup names (T day slot) (h day slot)
    · exact h d s

-- ---------- PLACEMENT SEARCH LEMMAS ----------

theorem blockOk_iff (T : Grid) (maxC : Int) (size : Nat) (day : String)
    (dayAvail block : List String) :
    blockOk T maxC size day dayAvail block = true ↔
      ∀ s ∈ block, s ∈ dayAvail ∧ ((T day s).length : Int) + size ≤ maxC := by
  simp [blockOk, List.all_eq_true]

theorem findStartIdx_some (T : Grid) (maxC : Int) (size : Nat) (day : String)
    (dayAvail time_slots : List String) (sps i : Nat)
    (h : findStartIdx T maxC size day dayAvail time_slots sps = some i) :
    blockOk T maxC size day dayAvail (blockAt time_slots sps i) = true ∧
      i + sps ≤ time_slots.length := by
  unfold findStartIdx at h
  have hp := List.find?_some h
  have hmem := List.mem_of_find?_eq_some h
  rw [List.mem_range] at hmem
  exact ⟨hp, by omega⟩

theorem findPlacementAux_some (ctx : UnitCtx) (st : UnitState) :
    ∀ (ds : List String) (i0 dIdx : Nat) (day : String) (block : List String),
      findPlacementAux ctx st i0 ds = some (dIdx, day, block) →
      day ∈ ds ∧ daySkip ctx st dIdx day = false ∧
        (∃ j, j + ctx.sps ≤ ctx.time_slots.length ∧
          block = blockAt ctx.time_slots ctx.sps j) ∧
        blockOk st.T ctx.maxC ctx.size day (lookupD ctx.avail day) block = true := by
  intro ds
  induction ds with
  | nil => intro i0 dIdx day block h; cases h
  | cons d0 rest ih =>
    intro i0 dIdx day block h
    unfold findPlacementAux at h
    by_cases hskip : daySkip ctx st i0 d0
    · rw [if_pos hskip] at h
      obtain ⟨hmem, hrest⟩ := ih (i0 + 1) dIdx day block h
      exact ⟨by simp [hmem], hrest⟩
    · rw [if_neg hskip] at h
      cases hfind : findStartIdx st.T ctx.maxC ctx.size d0 (lookupD ctx.avail d0)
          ctx.time_slots ctx.sps with
      | none =>
        rw [hfind] at h
        obtain ⟨hmem, hrest⟩ := ih (i0 + 1) dIdx day block h
        exact ⟨by simp [hmem], hrest⟩
      | some j =>
        rw [hfind] at h
        injection h with h1
        injection h1 with ha h2
        injection h2 with hb hc
        subst ha; subst hb; subst hc
        obtain ⟨hok, hlen⟩ := findStartIdx_some _ _ _ _ _ _ _ _ hfind
        exact ⟨by simp, by simpa using hskip, ⟨j, hlen, rfl⟩, hok⟩

-- ---------- STATE-STEP LEMMAS ----------

theorem placeOne_some (ctx : UnitCtx) (st st' : UnitState)
    (h : placeOne ctx st = some st') :
    ∃ dIdx day block,
      findPlacementAux ctx st 0 ctx.days = some (dIdx, day, block) ∧
      st'.T = bookBlock st.T day block ctx.bookNames ∧
      st'.scheduled = st.scheduled + 1 ∧
      st'.usedDays = day :: st.usedDays ∧
      st'.usedIdxs = st.usedIdxs ++ [dIdx] ∧
      st'.reason = st.reason := by
  unfold placeOne at h
  cases hf : findPlacementAux ctx st 0 ctx.days with
  | none => rw [hf] at h; cases h
  | some v =>
    obtain ⟨dIdx, day, block⟩ := v
    rw [hf] at h
    injection h with h
    refine ⟨dIdx, day, block, rfl, ?_, ?_, ?_, ?_, ?_⟩ <;> simp [← h]

theorem placeOne_bound (ctx : UnitCtx) (hn : ctx.bookNames.length ≤ ctx.size)
    (st st' : UnitState) (h : placeOne ctx st = some st')
    (hb : GridBound ctx.maxC st.T) : GridBound ctx.maxC st'.T := by
  obtain ⟨dIdx, day, block, hf, hT, -⟩ := placeOne_some ctx st st' h
  obtain ⟨-, -, -, hok⟩ := findPlacementAux_some ctx st ctx.days 0 dIdx day block hf
  rw [hT]
  apply bookBlock_bound_start
  · intro s hs
    have := ((blockOk_iff _ _ _ _ _ _).mp hok s hs).2
    have hcast : (ctx.bookNames.length : Int) ≤ (ctx.size : Int) := by exact_mod_cast hn
    omega
  · exact hb

theorem placeSessions_bound (ctx : UnitCtx) (hn : ctx.bookNames.length ≤ ctx.size) :
    ∀ (n : Nat) (st : UnitState), GridBound ctx.maxC st.T →
      GridBound ctx.maxC (placeSessions ctx n st).T := by
  intro n
  induction n with
  | zero => intro st h; exact h
  | succ m ih =>
    intro st h
    unfold placeSessions
    cases hp : placeOne ctx st with
    | none => exact h
    | some st' => exact ih st' (placeOne_bound ctx hn st st' hp h)

theorem placeOne_nodup (ctx : UnitCtx) (st st' : UnitState)
    (h : placeOne ctx st = some st') (hb : GridNodup st.T) : GridNodup st'.T := by
  obtain ⟨dIdx, day, block, hf, hT, -⟩ := placeOne_some ctx st st' h
  rw [hT]
  exact bookBlock_nodup st.T day ctx.bookNames block hb

theorem placeSessions_nodup (ctx : UnitCtx) :
    ∀ (n : Nat) (st : UnitState), GridNodup st.T →
      GridNodup (placeSessions ctx n st).T := by
  intro n
  induction n with
  | zero => intro st h; exact h
  | succ m ih =>
    intro st h
    unfold placeSessions
    cases hp : placeOne ctx st with
    | none => exact h
    | some st' => exact ih st' (placeOne_nodup ctx st st' hp h)

-- ---------- UNIT-LEVEL AND DRIVER-LEVEL GRID INVARIANTS ----------

theorem processGroup_bound (sc : SchedCtx) (T : Grid) (gid : String)
    (members : List Client) (hb : GridBound sc.maxC T) :
    GridBound sc.maxC (processGroup sc T gid members).T := by
  unfold processGroup
  cases members with
  | nil => exact hb
  | cons template rest =>
    dsimp only
    split
    · exact hb
    · rw [runGroupUnit_T]
      unfold groupSt
      apply placeSessions_bound
      · simp [groupCtx]
      · exact hb

theorem processSolo_bound (sc : SchedCtx) (T : Grid) (c : Client)
    (hb : GridBound sc.maxC T) : GridBound sc.maxC (processSolo sc T c).T := by
  unfold processSolo
  split
  · exact hb
  · split
    · exact hb
    · rw [runSoloUnit_T]
      unfold soloSt
      apply placeSessions_bound
      · simp [soloCtx]
      · exact hb

theorem processGroup_nodup (sc : SchedCtx) (T : Grid) (gid : String)
    (members : List Client) (hb : GridNodup T) :
    GridNodup (processGroup sc T gid members).T := by
  unfold processGroup
  cases members with
  | nil => exact hb
  | cons template rest =>
    dsimp only
    split
    · exact hb
    · rw [runGroupUnit_T]
      exact placeSessions_nodup _ _ _ hb

theorem processSolo_nodup (sc : SchedCtx) (T : Grid) (c : Client)
    (hb : GridNodup T) : GridNodup (processSolo sc T c).T := by
  unfold processSolo
  split
  · exact hb
  · split
    · exact hb
    · rw [runSoloUnit_T]
      exact placeSessions_nodup _ _ _ hb

theorem run_core_bound (cfg : Config) (h0 : 0 ≤ cfg.maxC) :
    GridBound cfg.maxC (run_core cfg).timetable := by
  unfold run_core
  dsimp only
  apply foldl_preserve
    (fun (acc : Grid × List String × (String → Option SummaryRec)) =>
      GridBound cfg.maxC acc.1)
  · intro a c ha
    exact processSolo_bound _ a.1 c ha
  · apply foldl_preserve
      (fun (acc : Grid × List String × (String → Option SummaryRec)) =>
        GridBound cfg.maxC acc.1)
    · intro a g ha
      exact processGroup_bound _ a.1 g.1 g.2 ha
    · intro d s
      simpa using h0

theorem run_core_nodup (cfg : Config) :
    GridNodup (run_core cfg).timetable := by
  unfold run_core
  dsimp only
  apply foldl_preserve
    (fun (acc : Grid × List String × (String → Option SummaryRec)) =>
      GridNodup acc.1)
  · intro a c ha
    exact processSolo_nodup _ a.1 c ha
  · apply foldl_preserve
      (fun (acc : Grid × List String × (String → Option SummaryRec)) =>
        GridNodup acc.1)
    · intro a g ha
      exact processGroup_nodup _ a.1 g.1 g.2 ha
    · intro d s
      simp

-- ---------- SANITIZE LEMMAS ----------

theorem sanitize_ok (p : Payload) (cfg : Config) (h : sanitize p = .ok cfg) :
    1 ≤ cfg.maxC ∧ 1 ≤ cfg.days.length ∧ cfg.days.length ≤ 20 := by
  unfold sanitize at h
  cases h1 : pyToInt (pyOr p.cycle_length (PyVal.int 6)) with
  | error e => rw [h1] at h; cases h
  | ok cl =>
    rw [h1] at h
    cases h2 : pyToInt (pyOr p.max_clients_per_slot (PyVal.int 1)) with
    | error e => rw [h2] at h; cases h
    | ok mc =>
      rw [h2] at h
      cases h3 : pyToStr (pyOr p.workday_start (PyVal.str "08:00")) with
      | error e =>
        cases h4 : pyToStr (pyOr p.workday_end (PyVal.str "17:00")) with
        | error e2 => rw [h3, h4] at h; cases h
        | ok we => rw [h3, h4] at h; cases h
      | ok ws =>
        cases h4 : pyToStr (pyOr p.workday_end (PyVal.str "17:00")) with
        | error e => rw [h3, h4] at h; cases h
        | ok we =>
          rw [h3, h4] at h
          dsimp only at h
          injection h with h
          subst h
          refine ⟨?_, ?_, ?_⟩ <;> simp <;> split <;> omega

theorem run_scheduler_ok (p : Payload) (r : SchedResult)
    (h : run_scheduler p = .ok r) :
    ∃ cfg, sanitize p = .ok cfg ∧ r = run_core cfg := by
  unfold run_scheduler at h
  cases hs : sanitize p with
  | error e => rw [hs] at h; cases h
  | ok cfg =>
    rw [hs] at h
    injection h with h
    exact ⟨cfg, rfl, h.symm⟩

-- ---------- SESSION-LOOP COUNTING AND DIAGNOSTICS LEMMAS ----------

theorem placeSessions_scheduled_le (ctx : UnitCtx) :
    ∀ (n : Nat) (st : UnitState),
      (placeSessions ctx n st).scheduled ≤ st.scheduled + n := by
  intro n
  induction n with
  | zero => intro st; simp [placeSessions]
  | succ m ih =>
    intro st
    unfold placeSessions
    cases hp : placeOne ctx st with
    | none => dsimp only; omega
    | some st' =>
      dsimp only
      obtain ⟨-, -, -, -, -, hsch, -⟩ := placeOne_some ctx st st' hp
      have := ih st'
      omega

theorem placeSessions_all_or_reason (ctx : UnitCtx) :
    ∀ (n : Nat) (st : UnitState),
      (placeSessions ctx n st).scheduled = st.scheduled + n ∨
        (placeSessions ctx n st).reason =
          analyze_failure_reason ctx.time_slots ctx.days ctx.avail ctx.sps := by
  intro n
  induction n with
  | zero => intro st; simp [placeSessions]
  | succ m ih =>
    intro st
    unfold placeSessions
    cases hp : placeOne ctx st with
    | none => right; rfl
    | some st' =>
      dsimp only
      obtain ⟨-, -, -, -, -, hsch, -⟩ := placeOne_some ctx st st' hp
      rcases ih st' with h | h
      · left; omega
      · right; exact h

-- ---------- SPACING-RULE LEMMAS ----------

theorem daySkip_false_opd (ctx : UnitCtx) (st : UnitState) (dIdx : Nat)
    (day : String) (hrule : ctx.rule = "once_per_day")
    (h : daySkip ctx st dIdx day = false) : day ∉ st.usedDays := by
  unfold daySkip at h
  rw [hrule] at h
  simp only [Bool.or_eq_false_iff, Bool.and_eq_false_iff] at h
  have h1 := h.1.1
  simp at h1
  exact h1

theorem daySkip_false_ncd (ctx : UnitCtx) (st : UnitState) (dIdx : Nat)
    (day : String) (hrule : ctx.rule = "no_consecutive_days")
    (h : daySkip ctx st dIdx day = false) :
    ∀ idx ∈ st.usedIdxs, FarApart dIdx idx := by
  unfold daySkip at h
  rw [hrule] at h
  simp only [Bool.or_eq_false_iff, Bool.and_eq_false_iff] at h
  have h1 := h.1.1.2
  simp [List.any_eq_true] at h1
  intro idx hidx
  have := h1 idx hidx
  unfold FarApart
  omega

theorem placeSessions_opd (ctx : UnitCtx) (hrule : ctx.rule = "once_per_day") :
    ∀ (n : Nat) (st : UnitState), st.usedDays.Nodup →
      (placeSessions ctx n st).usedDays.Nodup := by
  intro n
  induction n with
  | zero => intro st h; exact h
  | succ m ih =>
    intro st h
    unfold placeSessions
    cases hp : placeOne ctx st with
    | none => exact h
    | some st' =>
      obtain ⟨dIdx, day, block, hf, hT, hsch, hdays, hidxs, hreason⟩ :=
        placeOne_some ctx st st' hp
      obtain ⟨hmem, hskip, hwin, hok⟩ :=
        findPlacementAux_some ctx st ctx.days 0 dIdx day block hf
      apply ih
      rw [hdays]
      exact List.Nodup.cons (daySkip_false_opd ctx st dIdx day hrule hskip) h

theorem placeSessions_ncd (ctx : UnitCtx)
    (hrule : ctx.rule = "no_consecutive_days") :
    ∀ (n : Nat) (st : UnitState), st.usedIdxs.Pairwise FarApart →
      (placeSessions ctx n st).usedIdxs.Pairwise FarApart := by
  intro n
  induction n with
  | zero => intro st h; exact h
  | succ m ih =>
    intro st h
    unfold placeSessions
    cases hp : placeOne ctx st with
    | none => exact h
    | some st' =>
      obtain ⟨dIdx, day, block, hf, hT, hsch, hdays, hidxs, hreason⟩ :=
        placeOne_some ctx st st' hp
      obtain ⟨hmem, hskip, hwin, hok⟩ :=
        findPlacementAux_some ctx st ctx.days 0 dIdx day block hf
      apply ih
      rw [hidxs, List.pairwise_append]
      refine ⟨h, List.pairwise_singleton _ _, ?_⟩
      intro a ha b hb
      rw [List.mem_singleton] at hb
      have hfar := daySkip_false_ncd ctx st dIdx day hrule hskip a ha
      subst hb
      unfold FarApart at hfar ⊢
      omega

-- ---------- UNIT-RESULT PROJECTION LEMMAS ----------

theorem processGroup_nil (sc : SchedCtx) (T : Grid) (gid : String) :
    processGroup sc T gid [] = skipUnit T 0 := rfl

theorem processGroup_skip (sc : SchedCtx) (T : Grid) (gid : String)
    (template : Client) (rest : List Client)
    (h : template.sessions_needed ≤ 0) :
    processGroup sc T gid (template :: rest) =
      skipUnit T template.sessions_needed := by
  simp [processGroup, h]

theorem processGroup_pos (sc : SchedCtx) (T : Grid) (gid : String)
    (template : Client) (rest : List Client)
    (h : ¬ template.sessions_needed ≤ 0) :
    processGroup sc T gid (template :: rest) =
      runGroupUnit sc T gid template rest := by
  simp [processGroup, h]

theorem processSolo_noname (sc : SchedCtx) (T : Grid) (c : Client)
    (h : pyStrip c.name = "") : processSolo sc T c = skipUnit T 0 := by
  simp [processSolo, h]

theorem processSolo_skip (sc : SchedCtx) (T : Grid) (c : Client)
    (hn : ¬ pyStrip c.name = "") (h : c.sessions_needed ≤ 0) :
    processSolo sc T c = skipUnit T c.sessions_needed := by
  simp [processSolo, hn, h]

theorem processSolo_pos (sc : SchedCtx) (T : Grid) (c : Client)
    (hn : ¬ pyStrip c.name = "") (h : ¬ c.sessions_needed ≤ 0) :
    processSolo sc T c = runSoloUnit sc T c := by
  simp [processSolo, hn, h]

theorem runGroupUnit_scheduled (sc : SchedCtx) (T : Grid) (gid : String)
    (template : Client) (rest : List Client) :
    (runGroupUnit sc T gid template rest).scheduled =
      (groupSt sc T (template :: rest) template).scheduled := rfl

theorem runGroupUnit_needed (sc : SchedCtx) (T : Grid) (gid : String)
    (template : Client) (rest : List Client) :
    (runGroupUnit sc T gid template rest).needed = template.sessions_needed := rfl

theorem runGroupUnit_reason (sc : SchedCtx) (T : Grid) (gid : String)
    (template : Client) (rest : List Client) :
    (runGroupUnit sc T gid template rest).reason =
      (groupSt sc T (template :: rest) template).reason := rfl

theorem runGroupUnit_conflict (sc : SchedCtx) (T : Grid) (gid : String)
    (template : Client) (rest : List Client) :
    (runGroupUnit sc T gid template rest).conflict =
      (if ((groupSt sc T (template :: rest) template).scheduled : Int) <
          template.sessions_needed then
        some (groupMsg gid
          (((template :: rest).map (fun m => pyStrip m.name)).filter (fun n => n ≠ ""))
          template.sessions_needed
          (groupSt sc T (template :: rest) template).scheduled
          (groupSt sc T (template :: rest) template).reason)
      else Option.none) := rfl

theorem runSoloUnit_scheduled (sc : SchedCtx) (T : Grid) (c : Client) :
    (runSoloUnit sc T c).scheduled = (soloSt sc T c).scheduled := rfl

theorem runSoloUnit_needed (sc : SchedCtx) (T : Grid) (c : Client) :
    (runSoloUnit sc T c).needed = c.sessions_needed := rfl

theorem runSoloUnit_reason (sc : SchedCtx) (T : Grid) (c : Client) :
    (runSoloUnit sc T c).reason = (soloSt sc T c).reason := rfl

theorem runSoloUnit_conflict (sc : SchedCtx) (T : Grid) (c : Client) :
    (runSoloUnit sc T c).conflict =
      (if ((soloSt sc T c).scheduled : Int) < c.sessions_needed then
        some (soloMsg (pyStrip c.name) c.sessions_needed
          (soloSt sc T c).scheduled (soloSt sc T c).reason)
      else Option.none) := rfl

-- ---------- UNIT-LEVEL COUNT AND CONFLICT LEMMAS ----------

theorem processGroup_conflict_iff (sc : SchedCtx) (T : Grid) (gid : String)
    (members : List Client) :
    (processGroup sc T gid members).conflict.isSome = true ↔
      ((processGroup sc T gid members).scheduled : Int) <
        (processGroup sc T gid members).needed := by
  cases members with
  | nil => rw [processGroup_nil]; simp [skipUnit]
  | cons template rest =>
    by_cases h : template.sessions_needed ≤ 0
    · rw [processGroup_skip sc T gid template rest h]
      simp [skipUnit]
      omega
    · rw [processGroup_pos sc T gid template rest h]
      rw [runGroupUnit_conflict, runGroupUnit_scheduled, runGroupUnit_needed]
      split
      · rename_i hlt; simpa using hlt
      · rename_i hge; simpa using hge

theorem processSolo_conflict_iff (sc : SchedCtx) (T : Grid) (c : Client) :
    (processSolo sc T c).conflict.isSome = true ↔
      ((processSolo sc T c).scheduled : Int) < (processSolo sc T c).needed := by
  by_cases hn : pyStrip c.name = ""
  · rw [processSolo_noname sc T c hn]; simp [skipUnit]
  · by_cases h : c.sessions_needed ≤ 0
    · rw [processSolo_skip sc T c hn h]
      simp [skipUnit]
      omega
    · rw [processSolo_pos sc T c hn h]
      rw [runSoloUnit_conflict, runSoloUnit_scheduled, runSoloUnit_needed]
      split
      · rename_i hlt; simpa using hlt
      · rename_i hge; simpa using hge

theorem groupSt_scheduled_le (sc : SchedCtx) (T : Grid) (members : List Client)
    (template : Client) :
    (groupSt sc T members template).scheduled ≤
      template.sessions_needed.toNat := by
  have h := placeSessions_scheduled_le (groupCtx sc members template)
    template.sessions_needed.toNat (initState T)
  simpa [groupSt, initState] using h

theorem soloSt_scheduled_le (sc : SchedCtx) (T : Grid) (c : Client) :
    (soloSt sc T c).scheduled ≤ c.sessions_needed.toNat := by
  have h := placeSessions_scheduled_le (soloCtx sc c)
    c.sessions_needed.toNat (initState T)
  simpa [soloSt, initState] using h

theorem processGroup_scheduled_le (sc : SchedCtx) (T : Grid) (gid : String)
    (members : List Client)
    (hpos : 0 < (processGroup sc T gid members).needed) :
    ((processGroup sc T gid members).scheduled : Int) ≤
      (processGroup sc T gid members).needed := by
  cases members with
  | nil => rw [processGroup_nil] at hpos ⊢; simp [skipUnit] at hpos
  | cons template rest =>
    by_cases h : template.sessions_needed ≤ 0
    · rw [processGroup_skip sc T gid template rest h] at hpos
      simp [skipUnit] at hpos
      omega
    · rw [processGroup_pos sc T gid template rest h]
      rw [runGroupUnit_scheduled, runGroupUnit_needed]
      have := groupSt_scheduled_le sc T (template :: rest) template
      omega

theorem processSolo_scheduled_le (sc : SchedCtx) (T : Grid) (c : Client)
    (hpos : 0 < (processSolo sc T c).needed) :
    ((processSolo sc T c).scheduled : Int) ≤ (processSolo sc T c).needed := by
  by_cases hn : pyStrip c.name = ""
  · rw [processSolo_noname sc T c hn] at hpos; simp [skipUnit] at hpos
  · by_cases h : c.sessions_needed ≤ 0
    · rw [processSolo_skip sc T c hn h] at hpos
      simp [skipUnit] at hpos
      omega
    · rw [processSolo_pos sc T c hn h]
      rw [runSoloUnit_scheduled, runSoloUnit_needed]
      have := soloSt_scheduled_le sc T c
      omega

-- ---------- GROUPING / ORDERING LEMMAS ----------

theorem partStep_drop (acc : List (String × List Client) × List Client)
    (c : Client) (h : pyStrip c.name = "") : partStep acc c = acc := by
  simp [partStep, h]

theorem partStep_group (acc : List (String × List Client) × List Client)
    (c : Client) (h1 : ¬ pyStrip c.name = "") (h2 : c.group_id ≠ "") :
    partStep acc c = (addToGroups acc.1 c.group_id c, acc.2) := by
  simp [partStep, h1, h2]

theorem partStep_solo (acc : List (String × List Client) × List Client)
    (c : Client) (h1 : ¬ pyStrip c.name = "") (h2 : c.group_id = "") :
    partStep acc c = (acc.1, acc.2 ++ [c]) := by
  simp [partStep, h1, h2]

theorem addToGroups_map_fst (gs : List (String × List Client)) (gid : String)
    (c : Client) :
    (addToGroups gs gid c).map Prod.fst = seenInsert (gs.map Prod.fst) gid := by
  unfold addToGroups seenInsert
  by_cases h : gid ∈ gs.map Prod.fst
  · rw [if_pos h]
    have hany : gs.any (fun p => p.1 == gid) = true := by
      simp only [List.any_eq_true, beq_iff_eq]
      obtain ⟨p, hp, hfst⟩ := List.mem_map.mp h
      exact ⟨p, hp, hfst⟩
    rw [if_pos hany, List.map_map]
    apply List.map_congr_left
    intro p _
    simp only [Function.comp_apply]
    split <;> rfl
  · rw [if_neg h]
    have hany : gs.any (fun p => p.1 == gid) = false := by
      rw [List.any_eq_false]
      intro p hp
      simp only [beq_iff_eq]
      intro hcontra
      exact h (List.mem_map.mpr ⟨p, hp, hcontra⟩)
    rw [hany]
    simp

theorem groupGids_cons_drop (c : Client) (rest : List Client)
    (h : pyStrip c.name = "") : groupGids (c :: rest) = groupGids rest := by
  simp [groupGids, List.filterMap_cons, h]

theorem groupGids_cons_group (c : Client) (rest : List Client)
    (h1 : ¬ pyStrip c.name = "") (h2 : c.group_id ≠ "") :
    groupGids (c :: rest) = c.group_id :: groupGids rest := by
  simp [groupGids, List.filterMap_cons, h1, h2]

theorem groupGids_cons_solo (c : Client) (rest : List Client)
    (h1 : ¬ pyStrip c.name = "") (h2 : c.group_id = "") :
    groupGids (c :: rest) = groupGids rest := by
  simp [groupGids, List.filterMap_cons, h1, h2]

theorem partition_fst_aux :
    ∀ (cs : List Client) (acc : List (String × List Client) × List Client),
      ((cs.foldl partStep acc).1).map Prod.fst =
        (groupGids cs).foldl seenInsert (acc.1.map Prod.fst) := by
  intro cs
  induction cs with
  | nil => intro acc; rfl
  | cons c rest ih =>
    intro acc
    rw [List.foldl_cons]
    by_cases h1 : pyStrip c.name = ""
    · rw [partStep_drop acc c h1, groupGids_cons_drop c rest h1]
      exact ih acc
    · by_cases h2 : c.group_id = ""
      · rw [partStep_solo acc c h1 h2, groupGids_cons_solo c rest h1 h2]
        exact ih _
      · rw [partStep_group acc c h1 h2, groupGids_cons_group c rest h1 h2,
          List.foldl_cons, ih]
        rw [addToGroups_map_fst]

theorem partition_fst (cs : List Client) :
    ((partitionClients cs).1).map Prod.fst = firstSeen (groupGids cs) := by
  unfold partitionClients firstSeen
  exact partition_fst_aux cs ([], [])

theorem partition_solos_aux :
    ∀ (cs : List Client) (acc : List (String × List Client) × List Client),
      (cs.foldl partStep acc).2 =
        acc.2 ++ cs.filter (fun c =>
          !(pyStrip c.name == "") && (c.group_id == "")) := by
  intro cs
  induction cs with
  | nil => intro acc; simp
  | cons c rest ih =>
    intro acc
    rw [List.foldl_cons]
    by_cases h1 : pyStrip c.name = ""
    · rw [partStep_drop acc c h1, ih, List.filter_cons]
      simp [h1]
    · by_cases h2 : c.group_id = ""
      · rw [partStep_solo acc c h1 h2, ih, List.filter_cons]
        simp [h1, h2]
      · rw [partStep_group acc c h1 h2, ih, List.filter_cons]
        simp [h1, h2]

theorem partition_solos (cs : List Client) :
    (partitionClients cs).2 =
      cs.filter (fun c => !(pyStrip c.name == "") && (c.group_id == "")) := by
  unfold partitionClients
  rw [partition_solos_aux cs ([], [])]
  rfl

theorem lookupGroup_nil (gid : String) : lookupGroup [] gid = [] := rfl

theorem lookupGroup_cons_eq (p : String × List Client)
    (rest : List (String × List Client)) (gid : String) (h : p.1 = gid) :
    lookupGroup (p :: rest) gid = p.2 := by
  unfold lookupGroup
  rw [List.find?_cons_of_pos]
  simpa using h

theorem lookupGroup_cons_ne (p : String × List Client)
    (rest : List (String × List Client)) (gid : String) (h : ¬ p.1 = gid) :
    lookupGroup (p :: rest) gid = lookupGroup rest gid := by
  unfold lookupGroup
  rw [List.find?_cons_of_neg]
  simpa using h

theorem addToGroups_any_true (gs : List (String × List Client)) (g : String)
    (c : Client) (h : (gs.any fun q => q.1 == g) = true) :
    addToGroups gs g c =
      gs.map (fun p => if p.1 == g then (p.1, p.2 ++ [c]) else p) := by
  simp [addToGroups, h]

theorem addToGroups_any_false (gs : List (String × List Client)) (g : String)
    (c : Client) (h : (gs.any fun q => q.1 == g) = false) :
    addToGroups gs g c = gs ++ [(g, [c])] := by
  simp [addToGroups, h]

theorem lookupGroup_map_upd_ne (g gid : String) (c : Client) (hne : ¬ g = gid) :
    ∀ gs : List (String × List Client),
      lookupGroup (gs.map (fun p =>
        if p.1 == g then (p.1, p.2 ++ [c]) else p)) gid =
      lookupGroup gs gid := by
  intro gs
  induction gs with
  | nil => rfl
  | cons p rest ih =>
    rw [List.map_cons]
    by_cases hpg : p.1 = g
    · have hupd : (if p.1 == g then (p.1, p.2 ++ [c]) else p) = (p.1, p.2 ++ [c]) := by
        simp [hpg]
      rw [hupd]
      have hp1 : ¬ p.1 = gid := by rw [hpg]; exact hne
      rw [lookupGroup_cons_ne _ _ _ (by exact hp1), lookupGroup_cons_ne _ _ _ hp1]
      exact ih
    · have hupd : (if p.1 == g then (p.1, p.2 ++ [c]) else p) = p := by
        simp [hpg]
      rw [hupd]
      by_cases hp1 : p.1 = gid
      · rw [lookupGroup_cons_eq _ _ _ hp1, lookupGroup_cons_eq _ _ _ hp1]
      · rw [lookupGroup_cons_ne _ _ _ hp1, lookupGroup_cons_ne _ _ _ hp1]
        exact ih

theorem lookupGroup_append_new (gs : List (String × List Client))
    (g gid : String) (c : Client)
    (h : (gs.any fun q => q.1 == g) = false) :
    lookupGroup (gs ++ [(g, [c])]) gid =
      if g = gid then lookupGroup gs gid ++ [c] else lookupGroup gs gid := by
  induction gs with
  | nil =>
    simp only [List.nil_append]
    by_cases hg : g = gid
    · rw [if_pos hg, lookupGroup_cons_eq _ _ _ hg, lookupGroup_nil]
      rfl
    · rw [if_neg hg, lookupGroup_cons_ne _ _ _ hg]
  | cons p rest ih =>
    have hh : (rest.any fun q => q.1 == g) = false ∧ ¬ p.1 = g := by
      simp only [List.any_cons, Bool.or_eq_false_iff] at h
      exact ⟨h.2, by simpa using h.1⟩
    rw [List.cons_append]
    by_cases hp1 : p.1 = gid
    · rw [lookupGroup_cons_eq _ _ _ hp1, lookupGroup_cons_eq _ _ _ hp1]
      have hg : ¬ g = gid := by
        intro hc
        exact hh.2 (by rw [hp1, hc])
      rw [if_neg hg]
    · rw [lookupGroup_cons_ne _ _ _ hp1, lookupGroup_cons_ne _ _ _ hp1]
      exact ih hh.1

theorem lookupGroup_addToGroups (g gid : String) (c : Client)
    (gs : List (String × List Client)) :
    lookupGroup (addToGroups gs g c) gid =
      if g = gid then lookupGroup gs gid ++ [c] else lookupGroup gs gid := by
  cases hany : (gs.any fun q => q.1 == g) with
  | false =>
    rw [addToGroups_any_false gs g c hany]
    exact lookupGroup_append_new gs g gid c hany
  | true =>
    rw [addToGroups_any_true gs g c hany]
    by_cases hg : g = gid
    · rw [if_pos hg]
      subst hg
      -- the first entry with key `g` receives the append
      revert hany
      induction gs with
      | nil => intro hany; simp at hany
      | cons p rest ih =>
        intro hany
        rw [List.map_cons]
        by_cases hp1 : p.1 = g
        · have hupd : (if p.1 == g then (p.1, p.2 ++ [c]) else p) =
              (p.1, p.2 ++ [c]) := by simp [hp1]
          rw [hupd, lookupGroup_cons_eq _ _ _ (by exact hp1),
            lookupGroup_cons_eq _ _ _ hp1]
        · have hupd : (if p.1 == g then (p.1, p.2 ++ [c]) else p) = p := by
            simp [hp1]
          have hrest : (rest.any fun q => q.1 == g) = true := by
            simp only [List.any_cons] at hany
            rcases Bool.or_eq_true_iff.mp hany with h | h
            · exact absurd (by simpa using h) hp1
            · exact h
          rw [hupd, lookupGroup_cons_ne _ _ _ hp1, lookupGroup_cons_ne _ _ _ hp1]
          exact ih hrest
    · rw [if_neg hg]
      exact lookupGroup_map_upd_ne g gid c hg gs

theorem partition_members_aux (gid : String) (hgid : ¬ gid = "") :
    ∀ (cs : List Client) (acc : List (String × List Client) × List Client),
      lookupGroup ((cs.foldl partStep acc).1) gid =
        lookupGroup acc.1 gid ++ cs.filter (fun c =>
          !(pyStrip c.name == "") && (c.group_id == gid)) := by
  intro cs
  induction cs with
  | nil => intro acc; simp
  | cons c rest ih =>
    intro acc
    rw [List.foldl_cons]
    by_cases h1 : pyStrip c.name = ""
    · rw [partStep_drop acc c h1, ih, List.filter_cons]
      simp [h1]
    · by_cases h2 : c.group_id = ""
      · rw [partStep_solo acc c h1 h2, ih, List.filter_cons]
        have hb : (c.group_id == gid) = false := by
          rw [h2]
          simp only [beq_eq_false_iff_ne, ne_eq]
          intro hc
          exact hgid hc.symm
        rw [hb, Bool.and_false]
        simp
      · rw [partStep_group acc c h1 h2, ih, List.filter_cons]
        dsimp only
        rw [lookupGroup_addToGroups]
        by_cases h3 : c.group_id = gid
        · rw [if_pos h3]
          have : (!(pyStrip c.name == "") && (c.group_id == gid)) = true := by
            simp [h1, h3]
          rw [this]
          simp
        · rw [if_neg h3]
          have : (!(pyStrip c.name == "") && (c.group_id == gid)) = false := by
            simp [h1, h3]
          rw [this]
          rfl

theorem partition_members (cs : List Client) (gid : String)
    (hgid : ¬ gid = "") :
    lookupGroup ((partitionClients cs).1) gid =
      cs.filter (fun c =>
        !(pyStrip c.name == "") && (c.group_id == gid)) := by
  unfold partitionClients
  rw [partition_members_aux gid hgid cs ([], [])]
  rfl

-- ---------- DIAGNOSTICS LEMMAS ----------

theorem msgs_ne : contentionMsg ≠ structuralMsg := by decide

theorem hasAnyBlock_iff (ts ds : List String)
    (avail : List (String × List String)) (sps : Nat) :
    hasAnyBlock ts ds avail sps = true ↔
      ∃ day ∈ ds, lookupD avail day ≠ [] ∧
        ∃ i, i + sps ≤ ts.length ∧
          ∀ s ∈ blockAt ts sps i, s ∈ lookupD avail day := by
  unfold hasAnyBlock
  simp only [List.any_eq_true, Bool.and_eq_true, Bool.not_eq_true',
    List.isEmpty_eq_false, List.all_eq_true, decide_eq_true_eq, List.mem_range]
  constructor
  · rintro ⟨day, hday, hne, i, hi, hall⟩
    exact ⟨day, hday, hne, i, by omega, hall⟩
  · rintro ⟨day, hday, hne, i, hi, hall⟩
    refine ⟨day, hday, hne, i, ?_, hall⟩
    -- `sps ≤ ts.length` because the block through position `i` fits
    omega

theorem analyze_eq_structural_iff (ts ds : List String)
    (avail : List (String × List String)) (sps : Nat) :
    analyze_failure_reason ts ds avail sps = structuralMsg ↔
      hasAnyBlock ts ds avail sps = false := by
  unfold analyze_failure_reason
  by_cases h : hasAnyBlock ts ds avail sps
  · rw [if_pos h, h]
    simp [msgs_ne]
  · rw [if_neg h]
    simp only [Bool.not_eq_true] at h
    rw [h]
    simp

theorem analyze_eq_contention_iff (ts ds : List String)
    (avail : List (String × List String)) (sps : Nat) :
    analyze_failure_reason ts ds avail sps = contentionMsg ↔
      hasAnyBlock ts ds avail sps = true := by
  unfold analyze_failure_reason
  by_cases h : hasAnyBlock ts ds avail sps
  · rw [if_pos h, h]
    simp
  · rw [if_neg h]
    simp only [Bool.not_eq_true] at h
    rw [h]
    simp
    exact fun hc => msgs_ne hc.symm

theorem runGroupUnit_avail (sc : SchedCtx) (T : Grid) (gid : String)
    (template : Client) (rest : List Client) :
    (runGroupUnit sc T gid template rest).avail =
      combinedAvail sc.days (template :: rest) := rfl

theorem runGroupUnit_sps (sc : SchedCtx) (T : Grid) (gid : String)
    (template : Client) (rest : List Client) :
    (runGroupUnit sc T gid template rest).sps =
      spsOf (effLength template.session_length_minutes) := rfl

theorem runSoloUnit_avail (sc : SchedCtx) (T : Grid) (c : Client) :
    (runSoloUnit sc T c).avail = normalize_availability c := rfl

theorem runSoloUnit_sps (sc : SchedCtx) (T : Grid) (c : Client) :
    (runSoloUnit sc T c).sps = spsOf (effLength c.session_length_minutes) := rfl

theorem groupSt_reason_of_short (sc : SchedCtx) (T : Grid)
    (members : List Client) (template : Client)
    (h : (groupSt sc T members template).scheduled <
      template.sessions_needed.toNat) :
    (groupSt sc T members template).reason =
      analyze_failure_reason sc.time_slots sc.days
        (combinedAvail sc.days members)
        (spsOf (effLength template.session_length_minutes)) := by
  rcases placeSessions_all_or_reason (groupCtx sc members template)
      template.sessions_needed.toNat (initState T) with hall | hr
  · exfalso
    have : (groupSt sc T members template).scheduled =
        template.sessions_needed.toNat := by
      have h0 : (initState T).scheduled = 0 := rfl
      unfold groupSt
      rw [hall, h0]
      omega
    omega
  · exact hr

theorem soloSt_reason_of_short (sc : SchedCtx) (T : Grid) (c : Client)
    (h : (soloSt sc T c).scheduled < c.sessions_needed.toNat) :
    (soloSt sc T c).reason =
      analyze_failure_reason sc.time_slots sc.days
        (normalize_availability c)
        (spsOf (effLength c.session_length_minutes)) := by
  rcases placeSessions_all_or_reason (soloCtx sc c)
      c.sessions_needed.toNat (initState T) with hall | hr
  · exfalso
    have : (soloSt sc T c).scheduled = c.sessions_needed.toNat := by
      have h0 : (initState T).scheduled = 0 := rfl
      unfold soloSt
      rw [hall, h0]
      omega
    omega
  · exact hr

theorem processGroup_reason_of_short (sc : SchedCtx) (T : Grid) (gid : String)
    (members : List Client)
    (h : ((processGroup sc T gid members).scheduled : Int) <
      (processGroup sc T gid members).needed) :
    (processGroup sc T gid members).reason =
      analyze_failure_reason sc.time_slots sc.days
        (processGroup sc T gid members).avail
        (processGroup sc T gid members).sps := by
  cases members with
  | nil => rw [processGroup_nil] at h ⊢; simp [skipUnit] at h
  | cons template rest =>
    by_cases hle : template.sessions_needed ≤ 0
    · rw [processGroup_skip sc T gid template rest hle] at h
      simp [skipUnit] at h
      omega
    · rw [processGroup_pos sc T gid template rest hle] at h ⊢
      rw [runGroupUnit_scheduled, runGroupUnit_needed] at h
      rw [runGroupUnit_reason, runGroupUnit_avail, runGroupUnit_sps]
      apply groupSt_reason_of_short
      omega

theorem processSolo_reason_of_short (sc : SchedCtx) (T : Grid) (c : Client)
    (h : ((processSolo sc T c).scheduled : Int) <
      (processSolo sc T c).needed) :
    (processSolo sc T c).reason =
      analyze_failure_reason sc.time_slots sc.days
        (processSolo sc T c).avail (processSolo sc T c).sps := by
  by_cases hn : pyStrip c.name = ""
  · rw [processSolo_noname sc T c hn] at h; simp [skipUnit] at h
  · by_cases hle : c.sessions_needed ≤ 0
    · rw [processSolo_skip sc T c hn hle] at h
      simp [skipUnit] at h
      omega
    · rw [processSolo_pos sc T c hn hle] at h ⊢
      rw [runSoloUnit_scheduled, runSoloUnit_needed] at h
      rw [runSoloUnit_reason, runSoloUnit_avail, runSoloUnit_sps]
      apply soloSt_reason_of_short
      omega

-- ---------- UNIT-LEVEL SPACING LEMMAS ----------

theorem runGroupUnit_usedDays (sc : SchedCtx) (T : Grid) (gid : String)
    (template : Client) (rest : List Client) :
    (runGroupUnit sc T gid template rest).usedDays =
      (groupSt sc T (template :: rest) template).usedDays := rfl

theorem runGroupUnit_usedIdxs (sc : SchedCtx) (T : Grid) (gid : String)
    (template : Client) (rest : List Client) :
    (runGroupUnit sc T gid template rest).usedIdxs =
      (groupSt sc T (template :: rest) template).usedIdxs := rfl

theorem runSoloUnit_usedDays (sc : SchedCtx) (T : Grid) (c : Client) :
    (runSoloUnit sc T c).usedDays = (soloSt sc T c).usedDays := rfl

theorem runSoloUnit_usedIdxs (sc : SchedCtx) (T : Grid) (c : Client) :
    (runSoloUnit sc T c).usedIdxs = (soloSt sc T c).usedIdxs := rfl

theorem processGroup_opd (sc : SchedCtx) (T : Grid) (gid : String)
    (members : List Client)
    (h : ∀ t ∈ members.take 1, t.spacing_rule = "once_per_day") :
    (processGroup sc T gid members).usedDays.Nodup := by
  cases members with
  | nil => rw [processGroup_nil]; exact List.nodup_nil
  | cons template rest =>
    by_cases hle : template.sessions_needed ≤ 0
    · rw [processGroup_skip sc T gid template rest hle]
      exact List.nodup_nil
    · rw [processGroup_pos sc T gid template rest hle, runGroupUnit_usedDays]
      unfold groupSt
      exact placeSessions_opd (groupCtx sc (template :: rest) template)
        (h template (by simp)) template.sessions_needed.toNat (initState T)
        List.nodup_nil

theorem processGroup_ncd (sc : SchedCtx) (T : Grid) (gid : String)
    (members : List Client)
    (h : ∀ t ∈ members.take 1, t.spacing_rule = "no_consecutive_days") :
    (processGroup sc T gid members).usedIdxs.Pairwise FarApart := by
  cases members with
  | nil => rw [processGroup_nil]; exact List.Pairwise.nil
  | cons template rest =>
    by_cases hle : template.sessions_needed ≤ 0
    · rw [processGroup_skip sc T gid template rest hle]
      exact List.Pairwise.nil
    · rw [processGroup_pos sc T gid template rest hle, runGroupUnit_usedIdxs]
      unfold groupSt
      exact placeSessions_ncd (groupCtx sc (template :: rest) template)
        (h template (by simp)) template.sessions_needed.toNat (initState T)
        List.Pairwise.nil

theorem processSolo_opd (sc : SchedCtx) (T : Grid) (c : Client)
    (h : c.spacing_rule = "once_per_day") :
    (processSolo sc T c).usedDays.Nodup := by
  by_cases hn : pyStrip c.name = ""
  · rw [processSolo_noname sc T c hn]; exact List.nodup_nil
  · by_cases hle : c.sessions_needed ≤ 0
    · rw [processSolo_skip sc T c hn hle]; exact List.nodup_nil
    · rw [processSolo_pos sc T c hn hle, runSoloUnit_usedDays]
      unfold soloSt
      exact placeSessions_opd (soloCtx sc c) h c.sessions_needed.toNat
        (initState T) List.nodup_nil

theorem processSolo_ncd (sc : SchedCtx) (T : Grid) (c : Client)
    (h : c.spacing_rule = "no_consecutive_days") :
    (processSolo sc T c).usedIdxs.Pairwise FarApart := by
  by_cases hn : pyStrip c.name = ""
  · rw [processSolo_noname sc T c hn]; exact List.Pairwise.nil
  · by_cases hle : c.sessions_needed ≤ 0
    · rw [processSolo_skip sc T c hn hle]; exact List.Pairwise.nil
    · rw [processSolo_pos sc T c hn hle, runSoloUnit_usedIdxs]
      unfold soloSt
      exact placeSessions_ncd (soloCtx sc c) h c.sessions_needed.toNat
        (initState T) List.Pairwise.nil

-- ---------- SUMMARY LEMMAS ----------

theorem runSoloUnit_summaryUpd (sc : SchedCtx) (T : Grid) (c : Client) :
    (runSoloUnit sc T c).summaryUpd =
      [(pyStrip c.name,
        ⟨c.sessions_needed, (soloSt sc T c).scheduled,
          effLength c.session_length_minutes,
          if ((soloSt sc T c).scheduled : Int) < c.sessions_needed then
            (soloSt sc T c).reason
          else ""⟩)] := rfl

theorem runGroupUnit_summaryUpd (sc : SchedCtx) (T : Grid) (gid : String)
    (template : Client) (rest : List Client) :
    (runGroupUnit sc T gid template rest).summaryUpd =
      (template :: rest).filterMap (fun m =>
        if pyStrip m.name = "" then Option.none
        else some (pyStrip m.name,
          (⟨template.sessions_needed,
            (groupSt sc T (template :: rest) template).scheduled,
            effLength template.session_length_minutes,
            if ((groupSt sc T (template :: rest) template).scheduled : Int) <
                template.sessions_needed then
              (groupSt sc T (template :: rest) template).reason
            else ""⟩ : SummaryRec))) := rfl

theorem filterMap_summary (rec0 : SummaryRec) :
    ∀ members : List Client,
      members.filterMap (fun m =>
        if pyStrip m.name = "" then Option.none
        else some (pyStrip m.name, rec0)) =
      ((members.map (fun m => pyStrip m.name)).filter
        (fun n => n ≠ "")).map (fun n => (n, rec0)) := by
  intro members
  induction members with
  | nil => rfl
  | cons m rest ih =>
    rw [List.filterMap_cons, List.map_cons, List.filter_cons]
    by_cases h : pyStrip m.name = ""
    · simp only [h, if_pos rfl]
      have : (decide (("" : String) ≠ "")) = false := by decide
      rw [this]
      exact ih
    · rw [if_neg h]
      have : (decide (pyStrip m.name ≠ "")) = true := by
        simpa using h
      rw [this]
      simp only [if_true, List.map_cons]
      rw [ih]

theorem applyUpds_isSome_mono :
    ∀ (upds : List (String × SummaryRec)) (f : String → Option SummaryRec)
      (k : String), (f k).isSome = true →
      ((applyUpds f upds) k).isSome = true := by
  intro upds
  induction upds with
  | nil => intro f k h; exact h
  | cons u rest ih =>
    intro f k h
    apply ih
    by_cases hk : k = u.1
    · simp [hk]
    · simp [hk]
      exact h

theorem applyUpds_isSome_of_mem :
    ∀ (upds : List (String × SummaryRec)) (f : String → Option SummaryRec)
      (k : String), k ∈ upds.map Prod.fst →
      ((applyUpds f upds) k).isSome = true := by
  intro upds
  induction upds with
  | nil => intro f k h; cases h
  | cons u rest ih =>
    intro f k h
    rw [List.map_cons] at h
    have hstep : applyUpds f (u :: rest) =
        applyUpds (fun x => if x = u.1 then some u.2 else f x) rest := rfl
    rw [hstep]
    rcases List.mem_cons.mp h with h | h
    · apply applyUpds_isSome_mono
      simp [h]
    · exact ih _ k h

theorem run_core_summary_of_solo (cfg : Config) (c : Client)
    (hc : c ∈ (partitionClients cfg.clients).2)
    (hn : ¬ pyStrip c.name = "") (hpos : ¬ c.sessions_needed ≤ 0) :
    ((run_core cfg).summary (pyStrip c.name)).isSome = true := by
  unfold run_core
  dsimp only
  obtain ⟨l1, l2, hsplit⟩ := List.append_of_mem hc
  rw [hsplit, List.foldl_append, List.foldl_cons]
  apply foldl_preserve
    (fun (acc : Grid × List String × (String → Option SummaryRec)) =>
      (acc.2.2 (pyStrip c.name)).isSome = true)
  · intro a b ha
    exact applyUpds_isSome_mono _ _ _ ha
  · dsimp only
    rw [processSolo_pos _ _ _ hn hpos, runSoloUnit_summaryUpd]
    apply applyUpds_isSome_of_mem
    simp

theorem run_core_summary_of_group_member (cfg : Config) (gid : String)
    (members : List Client) (m : Client)
    (hg : (gid, members) ∈ (partitionClients cfg.clients).1)
    (hm : m ∈ members) (hn : ¬ pyStrip m.name = "")
    (hpos : ∀ t ∈ members.take 1, ¬ t.sessions_needed ≤ 0) :
    ((run_core cfg).summary (pyStrip m.name)).isSome = true := by
  unfold run_core
  dsimp only
  obtain ⟨l1, l2, hsplit⟩ := List.append_of_mem hg
  rw [hsplit, List.foldl_append, List.foldl_cons]
  apply foldl_preserve
    (fun (acc : Grid × List String × (String → Option SummaryRec)) =>
      (acc.2.2 (pyStrip m.name)).isSome = true)
  · intro a b ha
    exact applyUpds_isSome_mono _ _ _ ha
  · apply foldl_preserve
      (fun (acc : Grid × List String × (String → Option SummaryRec)) =>
        (acc.2.2 (pyStrip m.name)).isSome = true)
    · intro a b ha
      exact applyUpds_isSome_mono _ _ _ ha
    · dsimp only
      cases members with
      | nil => cases hm
      | cons template rest =>
        rw [processGroup_pos _ _ _ _ _ (hpos template (by simp)),
          runGroupUnit_summaryUpd, filterMap_summary]
        apply applyUpds_isSome_of_mem
        refine List.mem_map.mpr ⟨_, List.mem_map.mpr ⟨pyStrip m.name, ?_, rfl⟩, rfl⟩
        apply List.mem_filter.mpr
        exact ⟨List.mem_map.mpr ⟨m, hm, rfl⟩, by simpa using hn⟩

-- ---------- SANITIZE LEMMAS ----------

theorem exists_pyToInt_pyOr (v : PyVal) (d : Int)
    (h : intAcceptable v = true) :
    ∃ n, pyToInt (pyOr v (PyVal.int d)) = .ok n := by
  cases v with
  | none => exact ⟨d, rfl⟩
  | int n =>
    by_cases hz : n = 0
    · subst hz
      exact ⟨d, rfl⟩
    · refine ⟨n, ?_⟩
      have : pyTruthy (PyVal.int n) = true := by simp [pyTruthy, hz]
      simp [pyOr, this, pyToInt]
  | str s =>
    by_cases hz : s = ""
    · subst hz
      exact ⟨d, rfl⟩
    · have : pyTruthy (PyVal.str s) = true := by simp [pyTruthy, hz]
      unfold intAcceptable at h
      rcases Bool.or_eq_true_iff.mp h with h | h
      · exact absurd (by simpa using h) hz
      · obtain ⟨n, hn⟩ := Option.isSome_iff_exists.mp h
        refine ⟨n, ?_⟩
        simp [pyOr, this, pyToInt, hn]

theorem exists_pyToStr_pyOr (v : PyVal) (d : String)
    (h : strAcceptable v = true) :
    ∃ s, pyToStr (pyOr v (PyVal.str d)) = .ok s := by
  cases v with
  | none => exact ⟨d, rfl⟩
  | int n => cases h
  | str s =>
    by_cases hz : s = ""
    · subst hz
      exact ⟨d, rfl⟩
    · have : pyTruthy (PyVal.str s) = true := by simp [pyTruthy, hz]
      exact ⟨s, by simp [pyOr, this, pyToStr]⟩

theorem sanitize_eq (p : Payload) (cl mc : Int) (ws we : String)
    (h1 : pyToInt (pyOr p.cycle_length (PyVal.int 6)) = .ok cl)
    (h2 : pyToInt (pyOr p.max_clients_per_slot (PyVal.int 1)) = .ok mc)
    (h3 : pyToStr (pyOr p.workday_start (PyVal.str "08:00")) = .ok ws)
    (h4 : pyToStr (pyOr p.workday_end (PyVal.str "17:00")) = .ok we) :
    sanitize p = .ok
      ⟨(List.range (if cl < 1 then 1 else if cl > 20 then 20 else cl).toNat).map
          (fun d => "Day" ++ toString (d + 1)),
        build_time_slots ws we p.blackouts,
        if mc < 1 then 1 else if mc > 50 then 50 else mc,
        p.clients⟩ := by
  unfold sanitize
  rw [h1, h2, h3, h4]

theorem sanitize_days_length (p : Payload) (cfg : Config)
    (h : sanitize p = .ok cfg) (cl : Int)
    (hcl : pyToInt (pyOr p.cycle_length (PyVal.int 6)) = .ok cl) :
    (cfg.days.length : Int) =
      if cl < 1 then 1 else if cl > 20 then 20 else cl := by
  unfold sanitize at h
  rw [hcl] at h
  cases h2 : pyToInt (pyOr p.max_clients_per_slot (PyVal.int 1)) with
  | error e => rw [h2] at h; cases h
  | ok mc =>
    rw [h2] at h
    cases h3 : pyToStr (pyOr p.workday_start (PyVal.str "08:00")) with
    | error e =>
      cases h4 : pyToStr (pyOr p.workday_end (PyVal.str "17:00")) with
      | error e2 => rw [h3, h4] at h; cases h
      | ok we => rw [h3, h4] at h; cases h
    | ok ws =>
      cases h4 : pyToStr (pyOr p.workday_end (PyVal.str "17:00")) with
      | error e2 => rw [h3, h4] at h; cases h
      | ok we =>
        rw [h3, h4] at h
        dsimp only at h
        injection h with h
        subst h
        simp only [List.length_map, List.length_range]
        split
        · omega
        · split <;> omega

-- ---------- CLAIM THEOREMS ----------

/-- C1: for every payload accepted by the engine, every occupant list of
the resulting timetable is bounded by the clamped `max_clients_per_slot`
(`cfg.maxC`): a window is booked only when adding the unit's size to each
slot's occupancy stays within capacity, so the bound holds at every
intermediate grid (`placeSessions_bound`) and in the final grid. -/
theorem C1_grid_capacity (p : Payload) (cfg : Config) (r : SchedResult)
    (hc : sanitize p = Except.ok cfg) (hr : run_scheduler p = Except.ok r) :
    ∀ d s, ((r.timetable d s).length : Int) ≤ cfg.maxC := by
  obtain ⟨cfg', hc', hr'⟩ := run_scheduler_ok p r hr
  rw [hc] at hc'
  injection hc' with hc'
  subst hc'
  rw [hr']
  apply run_core_bound
  have := sanitize_ok p cfg hc
  omega

theorem C1_grid_capacity_witness :
    sanitize payloadA = Except.ok cfgA ∧
      run_scheduler payloadA = Except.ok (run_core cfgA) ∧
      (((run_core cfgA).timetable "Day1" "08:00").length : Int) ≤ cfgA.maxC :=
  ⟨rfl, rfl, C1_grid_capacity payloadA cfgA (run_core cfgA) rfl rfl "Day1" "08:00"⟩

/-- C2: for every scheduling unit the engine processes (both the group
pass and the solo pass), the final scheduled count satisfies
`0 ≤ scheduled ≤ needed`, and the unit contributes an entry to the
conflict list (its `conflict` component, which `run_core` appends to
`conflicts`) exactly when `scheduled < needed`. -/
theorem C2_scheduled_bounds_conflicts :
    (∀ (sc : SchedCtx) (T : Grid) (gid : String) (members : List Client),
      ((processGroup sc T gid members).conflict.isSome = true ↔
        ((processGroup sc T gid members).scheduled : Int) <
          (processGroup sc T gid members).needed) ∧
      (0 < (processGroup sc T gid members).needed →
        0 ≤ ((processGroup sc T gid members).scheduled : Int) ∧
        ((processGroup sc T gid members).scheduled : Int) ≤
          (processGroup sc T gid members).needed)) ∧
    (∀ (sc : SchedCtx) (T : Grid) (c : Client),
      ((processSolo sc T c).conflict.isSome = true ↔
        ((processSolo sc T c).scheduled : Int) < (processSolo sc T c).needed) ∧
      (0 < (processSolo sc T c).needed →
        0 ≤ ((processSolo sc T c).scheduled : Int) ∧
        ((processSolo sc T c).scheduled : Int) ≤ (processSolo sc T c).needed)) := by
  constructor
  · intro sc T gid members
    exact ⟨processGroup_conflict_iff sc T gid members,
      fun h => ⟨by positivity, processGroup_scheduled_le sc T gid members h⟩⟩
  · intro sc T c
    exact ⟨processSolo_conflict_iff sc T c,
      fun h => ⟨by positivity, processSolo_scheduled_le sc T c h⟩⟩

theorem C2_scheduled_bounds_conflicts_witness :
    (((processSolo scW emptyGrid cW).conflict.isSome = true ↔
        ((processSolo scW emptyGrid cW).scheduled : Int) <
          (processSolo scW emptyGrid cW).needed) ∧
      (0 ≤ ((processSolo scW emptyGrid cW).scheduled : Int) ∧
        ((processSolo scW emptyGrid cW).scheduled : Int) ≤
          (processSolo scW emptyGrid cW).needed)) :=
  ⟨(C2_scheduled_bounds_conflicts.2 scW emptyGrid cW).1,
    (C2_scheduled_bounds_conflicts.2 scW emptyGrid cW).2 (by decide)⟩

/-- C3 (corrected): the claim that the engine never raises for malformed
top-level parameters is false — `int(payload.get("cycle_length", 6) or 6)`
raises `ValueError` for a truthy non-numeric string.  Here
`run_scheduler` on such a payload yields `Except.error` rather than a
schedule. -/
theorem C3_counterexample :
    isOkRun (run_scheduler payloadBadCycle) = false := rfl

/-- C3 (amended): for top-level parameters that are absent, `None`,
falsy, integers (of any magnitude — clamping repairs the range), numeric
strings, or strings for the workday fields, the engine does not raise:
defaults and clamping produce a best-effort schedule. -/
theorem C3_no_raise_amended (p : Payload)
    (h1 : intAcceptable p.cycle_length = true)
    (h2 : intAcceptable p.max_clients_per_slot = true)
    (h3 : strAcceptable p.workday_start = true)
    (h4 : strAcceptable p.workday_end = true) :
    ∃ r, run_scheduler p = Except.ok r := by
  obtain ⟨cl, hcl⟩ := exists_pyToInt_pyOr _ 6 h1
  obtain ⟨mc, hmc⟩ := exists_pyToInt_pyOr _ 1 h2
  obtain ⟨ws, hws⟩ := exists_pyToStr_pyOr _ "08:00" h3
  obtain ⟨we, hwe⟩ := exists_pyToStr_pyOr _ "17:00" h4
  refine ⟨run_core
    ⟨(List.range (if cl < 1 then 1 else if cl > 20 then 20 else cl).toNat).map
        (fun d => "Day" ++ toString (d + 1)),
      build_time_slots ws we p.blackouts,
      if mc < 1 then 1 else if mc > 50 then 50 else mc, p.clients⟩, ?_⟩
  unfold run_scheduler
  rw [sanitize_eq p cl mc ws we hcl hmc hws hwe]
  rfl

theorem C3_no_raise_amended_witness :
    intAcceptable payloadZeroCycle.cycle_length = true ∧
      (∃ r, run_scheduler payloadZeroCycle = Except.ok r) :=
  ⟨by decide, C3_no_raise_amended payloadZeroCycle (by decide) (by decide)
    (by decide) (by decide)⟩

/-- C4: scheduling units are processed in the order: all group units
first, keyed in the order their `group_id` is first seen among valid
clients (`partition_fst`), each group holding exactly the valid clients
with that id in input order (`partition_members`), followed by the solo
clients in input order (`partition_solos`); `run_core` folds the group
list and then the solo list in exactly these orders.  Consequently in
scenario B (capacity 1, two solo clients available only at 08:00 on
Day1), the first client in input order wins the slot and the second
appears in the conflict list with the contention diagnostic. -/
theorem C4_processing_order :
    (∀ cs : List Client,
      ((partitionClients cs).1).map Prod.fst = firstSeen (groupGids cs)) ∧
    (∀ (cs : List Client) (gid : String), ¬ gid = "" →
      lookupGroup ((partitionClients cs).1) gid =
        cs.filter (fun c => !(pyStrip c.name == "") && (c.group_id == gid))) ∧
    (∀ cs : List Client,
      (partitionClients cs).2 =
        cs.filter (fun c => !(pyStrip c.name == "") && (c.group_id == ""))) ∧
    (summaryAt (run_scheduler payloadB) "Ann" = some ⟨1, 1, 10, ""⟩ ∧
      summaryAt (run_scheduler payloadB) "Ben" =
        some ⟨1, 0, 10, contentionMsg⟩ ∧
      conflictsOf (run_scheduler payloadB) =
        ["Unable to fully schedule Ben: needed 1, scheduled 0. Reason: " ++
          contentionMsg] ∧
      gridAt (run_scheduler payloadB) "Day1" "08:00" = ["Ann"]) :=
  ⟨partition_fst, fun cs gid h => partition_members cs gid h, partition_solos,
    rfl, rfl, rfl, rfl⟩

theorem C4_processing_order_witness :
    lookupGroup ((partitionClients payloadC.clients).1) "G1" =
      payloadC.clients.filter (fun c =>
        !(pyStrip c.name == "") && (c.group_id == "G1")) :=
  C4_processing_order.2.1 payloadC.clients "G1" (by decide)

/-- C5: with one day, workday 08:00–09:00 and the fixed ten-minute
granularity, the slot list is exactly the six slots 08:00–08:50; the solo
client needing one 30-minute session and available everywhere is booked
into 08:00, 08:10 and 08:20, and every other slot stays empty. -/
theorem C5_scenario_A :
    slotsOf (run_scheduler payloadA) =
      ["08:00", "08:10", "08:20", "08:30", "08:40", "08:50"] ∧
    (slotsOf (run_scheduler payloadA)).all (fun s =>
      gridAt (run_scheduler payloadA) "Day1" s ==
        (if s ∈ ["08:00", "08:10", "08:20"] then ["Ann"] else [])) = true :=
  ⟨rfl, rfl⟩

/-- C6: a unit that falls short carries exactly one diagnostic:
`analyze_failure_reason` returns the structural message exactly when,
scanning all days and ignoring capacity and spacing, no day has a
contiguous run of `slots_per_session` positions inside the unit's usable
set, and returns the (distinct) contention message otherwise; every
short unit's `reason` is the value of `analyze_failure_reason` on its
own availability and session width; and in scenario D a client with
`sessions_needed = 2` and no structurally valid block gets
`scheduled = 0` with the structural diagnostic. -/
theorem C6_failure_diagnostics :
    (∀ (ts ds : List String) (avail : List (String × List String)) (sps : Nat),
      analyze_failure_reason ts ds avail sps = structuralMsg ↔
        ¬ ∃ day ∈ ds, lookupD avail day ≠ [] ∧
          ∃ i, i + sps ≤ ts.length ∧
            ∀ s ∈ blockAt ts sps i, s ∈ lookupD avail day) ∧
    (∀ (sc : SchedCtx) (T : Grid) (gid : String) (members : List Client),
      ((processGroup sc T gid members).scheduled : Int) <
          (processGroup sc T gid members).needed →
        (processGroup sc T gid members).reason =
          analyze_failure_reason sc.time_slots sc.days
            (processGroup sc T gid members).avail
            (processGroup sc T gid members).sps) ∧
    (∀ (sc : SchedCtx) (T : Grid) (c : Client),
      ((processSolo sc T c).scheduled : Int) < (processSolo sc T c).needed →
        (processSolo sc T c).reason =
          analyze_failure_reason sc.time_slots sc.days
            (processSolo sc T c).avail (processSolo sc T c).sps) ∧
    structuralMsg ≠ contentionMsg ∧
    summaryAt (run_scheduler payloadD) "Eve" = some ⟨2, 0, 30, structuralMsg⟩ := by
  refine ⟨?_, processGroup_reason_of_short, processSolo_reason_of_short,
    fun h => msgs_ne h.symm, rfl⟩
  intro ts ds avail sps
  rw [analyze_eq_structural_iff, Bool.eq_false_iff, ne_eq, hasAnyBlock_iff]

theorem C6_failure_diagnostics_witness :
    (processSolo scW6 emptyGrid cEve).reason =
      analyze_failure_reason scW6.time_slots scW6.days
        (processSolo scW6 emptyGrid cEve).avail
        (processSolo scW6 emptyGrid cEve).sps :=
  C6_failure_diagnostics.2.2.1 scW6 emptyGrid cEve (by decide)

/-- C7: under `once_per_day` a unit never books two blocks on the same
day (its recorded used-day list is duplicate-free), and under
`no_consecutive_days` any two recorded day indices differ by at least
two; in scenario C a two-member `no_consecutive_days` group needing two
sessions and available on Day1–Day3 lands on Day1 and Day3, leaving Day2
empty. -/
theorem C7_spacing_rules :
    (∀ (sc : SchedCtx) (T : Grid) (gid : String) (members : List Client),
      (∀ t ∈ members.take 1, t.spacing_rule = "once_per_day") →
      (processGroup sc T gid members).usedDays.Nodup) ∧
    (∀ (sc : SchedCtx) (T : Grid) (gid : String) (members : List Client),
      (∀ t ∈ members.take 1, t.spacing_rule = "no_consecutive_days") →
      (processGroup sc T gid members).usedIdxs.Pairwise FarApart) ∧
    (∀ (sc : SchedCtx) (T : Grid) (c : Client),
      c.spacing_rule = "once_per_day" →
      (processSolo sc T c).usedDays.Nodup) ∧
    (∀ (sc : SchedCtx) (T : Grid) (c : Client),
      c.spacing_rule = "no_consecutive_days" →
      (processSolo sc T c).usedIdxs.Pairwise FarApart) ∧
    (gridAt (run_scheduler payloadC) "Day1" "08:00" = ["Cara", "Dan"] ∧
      gridAt (run_scheduler payloadC) "Day2" "08:00" = [] ∧
      gridAt (run_scheduler payloadC) "Day3" "08:00" = ["Cara", "Dan"] ∧
      conflictsOf (run_scheduler payloadC) = []) :=
  ⟨processGroup_opd, processGroup_ncd, processSolo_opd, processSolo_ncd,
    rfl, rfl, rfl, rfl⟩

theorem C7_spacing_rules_witness :
    (processSolo scW emptyGrid cOpd).usedDays.Nodup :=
  C7_spacing_rules.2.2.1 scW emptyGrid cOpd (by decide)

/-- C8 (corrected): the claim that every named client — including one
whose `sessions_needed` is zero — gets a summary record is false: a unit
whose `sessions_needed` is not positive is skipped with `continue`
before the summary assignment, so its clients are absent from the
summary.  Here a payload with one named client with `sessions_needed=0`
returns normally with no record for that name. -/
theorem C8_counterexample :
    isOkRun (run_scheduler payloadZeroNeed) = true ∧
      summaryAt (run_scheduler payloadZeroNeed) "Ann" = Option.none :=
  ⟨rfl, rfl⟩

/-- C8 (amended): every solo client with a non-empty stripped name and
positive `sessions_needed` gets a summary record, as does every named
member of a group whose representative's `sessions_needed` is positive;
the members of one group all receive one shared record (the group's
aggregate numbers).  Clients whose unit is skipped
(`sessions_needed ≤ 0`) receive no record from that unit
(`C8_counterexample`). -/
theorem C8_summary_records_amended (p : Payload) (cfg : Config)
    (r : SchedResult) (hc : sanitize p = Except.ok cfg)
    (hr : run_scheduler p = Except.ok r) :
    (∀ c ∈ (partitionClients cfg.clients).2, ¬ pyStrip c.name = "" →
      ¬ c.sessions_needed ≤ 0 →
      (r.summary (pyStrip c.name)).isSome = true) ∧
    (∀ (gid : String) (members : List Client) (m : Client),
      (gid, members) ∈ (partitionClients cfg.clients).1 → m ∈ members →
      ¬ pyStrip m.name = "" →
      (∀ t ∈ members.take 1, ¬ t.sessions_needed ≤ 0) →
      (r.summary (pyStrip m.name)).isSome = true) ∧
    (∀ (sc : SchedCtx) (T : Grid) (gid : String) (template : Client)
        (rest : List Client), ¬ template.sessions_needed ≤ 0 →
      ∃ rec : SummaryRec,
        (processGroup sc T gid (template :: rest)).summaryUpd =
          (((template :: rest).map (fun m => pyStrip m.name)).filter
            (fun n => n ≠ "")).map (fun n => (n, rec))) := by
  obtain ⟨cfg', hc', hr'⟩ := run_scheduler_ok p r hr
  rw [hc] at hc'
  injection hc' with hc'
  subst hc'
  subst hr'
  refine ⟨?_, ?_, ?_⟩
  · intro c hcm hn hpos
    exact run_core_summary_of_solo cfg c hcm hn hpos
  · intro gid members m hg hm hn hpos
    exact run_core_summary_of_group_member cfg gid members m hg hm hn hpos
  · intro sc T gid template rest hpos
    rw [processGroup_pos sc T gid template rest hpos, runGroupUnit_summaryUpd,
      filterMap_summary]
    exact ⟨_, rfl⟩

theorem C8_summary_records_amended_witness :
    ((run_core cfgB).summary "Ann").isSome = true := by
  have h := (C8_summary_records_amended payloadB cfgB (run_core cfgB) rfl rfl).1
    (mkClient "Ann" 1 Option.none "none" "" [(DayKey.str "Day1", ["08:00"])])
    (by decide) (by decide) (by decide)
  simpa using h

/-- C9 (corrected): the claim that every provided integer `n` yields an
effective cycle length of `max(1, min(20, n))` fails at `n = 0`: the
code's `or 6` treats the falsy `0` like an absent field and produces six
days, while the claimed formula gives one. -/
theorem C9_counterexample :
    daysOf (run_scheduler payloadZeroCycle) =
      ["Day1", "Day2", "Day3", "Day4", "Day5", "Day6"] ∧
      (max 1 (min 20 (0 : Int)) ≠ 6) :=
  ⟨rfl, by decide⟩

/-- C9 (amended): the produced cycle has `max(1, min(20, n))` days for
every provided non-zero integer `n`; an absent `cycle_length` — and,
through the falsy `or 6` default, the provided integer `0` as well —
yields six days. -/
theorem C9_cycle_clamp_amended (p : Payload) (r : SchedResult)
    (hr : run_scheduler p = Except.ok r) :
    (p.cycle_length = PyVal.none → (r.days.length : Int) = 6) ∧
    (∀ n : Int, p.cycle_length = PyVal.int n → n ≠ 0 →
      (r.days.length : Int) = max 1 (min 20 n)) ∧
    (p.cycle_length = PyVal.int 0 → (r.days.length : Int) = 6) := by
  obtain ⟨cfg, hc, hr'⟩ := run_scheduler_ok p r hr
  have hdays : r.days = cfg.days := by rw [hr']; rfl
  refine ⟨?_, ?_, ?_⟩
  · intro hv
    have hcl : pyToInt (pyOr p.cycle_length (PyVal.int 6)) = .ok 6 := by
      rw [hv]; rfl
    have := sanitize_days_length p cfg hc 6 hcl
    rw [hdays, this]
    norm_num
  · intro n hv hnz
    have hcl : pyToInt (pyOr p.cycle_length (PyVal.int 6)) = .ok n := by
      rw [hv]
      have : pyTruthy (PyVal.int n) = true := by simp [pyTruthy, hnz]
      simp [pyOr, this, pyToInt]
    have := sanitize_days_length p cfg hc n hcl
    rw [hdays, this]
    split
    · rename_i h1; omega
    · split <;> omega
  · intro hv
    have hcl : pyToInt (pyOr p.cycle_length (PyVal.int 6)) = .ok 6 := by
      rw [hv]; rfl
    have := sanitize_days_length p cfg hc 6 hcl
    rw [hdays, this]
    norm_num

theorem C9_cycle_clamp_amended_witness :
    run_scheduler payloadThree = Except.ok (run_core cfgThree) ∧
      (((run_core cfgThree).days.length : Int) = max 1 (min 20 3)) :=
  ⟨rfl, (C9_cycle_clamp_amended payloadThree (run_core cfgThree) rfl).2.1 3
    rfl (by decide)⟩

/-- C10: every occupant list of the produced grid holds each name at most
once — a booking appends a name only when it is absent — and a unit whose
later session block lands on slots it already occupies (spacing `none`,
capacity 2, a single available window) has its scheduled count reach 2
while each slot still lists the name once and no conflict is reported. -/
theorem C10_no_duplicate_occupants :
    (∀ (p : Payload) (r : SchedResult), run_scheduler p = Except.ok r →
      ∀ d s, (r.timetable d s).Nodup) ∧
    ((slotsOf (run_scheduler payloadE)).all (fun s =>
      gridAt (run_scheduler payloadE) "Day1" s == ["Bob"]) = true ∧
      summaryAt (run_scheduler payloadE) "Bob" = some ⟨2, 2, 30, ""⟩ ∧
      conflictsOf (run_scheduler payloadE) = []) := by
  refine ⟨?_, rfl, rfl, rfl⟩
  intro p r hr d s
  obtain ⟨cfg, hc, hr'⟩ := run_scheduler_ok p r hr
  rw [hr']
  exact run_core_nodup cfg d s

theorem C10_no_duplicate_occupants_witness :
    ((run_core cfgE).timetable "Day1" "08:00").Nodup :=
  C10_no_duplicate_occupants.1 payloadE (run_core cfgE) rfl "Day1" "08:00"

end Timetable
